import Mathlib

/-!
MeteorMinimongoGraph: the link adapter of `src/graph.js`.

A shallow embedding of the class `Graph` (field-mapping adapter between logical
links and physical documents) and theorems about its methods.

Modelling conventions.

* A JavaScript value is a `Val`.  Numbers are integers (no `NaN`, no fractions);
  functions and arrays are not values of the model.
* A plain object is an `Obj`: the list of its own enumerable properties in
  `for ... in` enumeration order.  Property lookup takes the first entry with
  the key, so a list with a repeated key denotes the object of its first
  occurrences.  The order of the list is the enumeration order as it stands
  (array-index names are not moved to the front).
* The field mapping is a plain object: a read `this.fields[f]` finds the own
  entries and, behind them, the members inherited from `Object.prototype`
  (`Graph.field`).  Links, selectors, modifiers and sort descriptors are read
  only at their own enumerable names.
* Two objects are the same JavaScript record when they hold the same
  properties (`Obj.Same`), whatever the enumeration order.
* The field mapping `this.fields` pairs logical names with physical names,
  both strings.
* The backing collection is an external collaborator: the methods take it as a
  record of functions (`Collection`) over an explicit state.
-/

namespace MinimongoGraph

/-! ## Values and objects -/

/-- JavaScript values handled by the adapter. -/
inductive Val where
  | undefined
  | null
  | bool (b : Bool)
  | num (n : Int)
  | str (s : String)
  | obj (ps : List (String × Val))

/-- Own enumerable properties of a plain object, in enumeration order. -/
abbrev Obj := List (String × Val)

mutual
/-- Structural comparison of two values. -/
def Val.beq : Val → Val → Bool
  | .undefined, .undefined => true
  | .null, .null => true
  | .bool a, .bool b => a == b
  | .num a, .num b => a == b
  | .str a, .str b => a == b
  | .obj a, .obj b => Val.beqProps a b
  | _, _ => false
/-- Structural comparison of two property lists. -/
def Val.beqProps : List (String × Val) → List (String × Val) → Bool
  | [], [] => true
  | (k, v) :: r, (k2, v2) :: r2 => k == k2 && Val.beq v v2 && Val.beqProps r r2
  | _, _ => false
end

/-- The `typeof` operator. -/
def Val.typeof : Val → String
  | .undefined => "undefined"
  | .null => "object"
  | .bool _ => "boolean"
  | .num _ => "number"
  | .str _ => "string"
  | .obj _ => "object"

/-- Truthiness of a value in a condition. -/
def Val.truthy : Val → Bool
  | .undefined => false
  | .null => false
  | .bool b => b
  | .num n => n != 0
  | .str s => s != ""
  | .obj _ => true

namespace Obj

/-- Own property `k` of `o`, if `o` has it. -/
def getOwn : Obj → String → Option Val
  | [], _ => none
  | (k', v) :: r, k => if k' = k then some v else getOwn r k

/-- The test `o.hasOwnProperty(k)`. -/
def hasOwnProperty (o : Obj) (k : String) : Bool := (getOwn o k).isSome

/-- The read `o[k]`: `undefined` when `o` has no property `k`. -/
def get (o : Obj) (k : String) : Val := (getOwn o k).getD Val.undefined

/-- The write `o[k] = v`: replaces the value of an existing property in place,
appends a new property otherwise. -/
def set : Obj → String → Val → Obj
  | [], k, v => [(k, v)]
  | (k', v') :: r, k, v => if k' = k then (k', v) :: r else (k', v') :: set r k v

/-- The property names visited by `for (var k in o)`. -/
def keys (o : Obj) : List String := o.map Prod.fst

/-- Two property lists denote the same record: the same own properties with the
same values. -/
def Same (a b : Obj) : Prop := ∀ k, getOwn a k = getOwn b k

end Obj

/-- The names visited by `for (var k in v)` when `typeof v` is `object`: the
keys of an object, nothing for `null`. -/
def Val.forIn : Val → List String
  | .obj ps => Obj.keys ps
  | _ => []

/-- The read `v[k]` inside such a loop. -/
def Val.get : Val → String → Val
  | .obj ps, k => Obj.get ps k
  | _, _ => Val.undefined

/-- The write `o[k1][k2] = v`, for `o[k1]` an object. -/
def Obj.setIn (o : Obj) (k1 k2 : String) (v : Val) : Obj :=
  match Obj.get o k1 with
  | .obj inner => Obj.set o k1 (Val.obj (Obj.set inner k2 v))
  | _ => o

/-- Errors thrown while a method runs. -/
inductive JsError where
  | typeError
  | collectionError
  deriving DecidableEq

/-! ## The collection interface -/

/-- The generic options descriptor `{sort, skip, limit}` as documented: `sort`
is a sort descriptor object when present (`none` when absent or falsy); `skip`
and `limit` are any value, `undefined` when absent. -/
structure SelectOptions where
  sort : Option Obj
  skip : Val
  limit : Val

/-- The backing collection as the adapter uses it, over its state `σ`;
`κ` is the type of completion callbacks, which the adapter only forwards.
`find s filter` lists the documents of the cursor, in cursor order. -/
structure Collection (σ κ : Type) where
  insert : σ → Obj → Option κ → Except JsError (Val × σ)
  update : σ → Val → Obj → Option κ → Except JsError (Val × σ)
  remove : σ → Val → Option κ → Except JsError (Val × σ)
  find : σ → Val → List Obj

/-- What a callback-driven loop did: the arguments the caller's callback
received, in order, and the error that ended the loop, if one was thrown. -/
structure Run (α : Type) where
  calls : List α
  error : Option JsError

/-- What `fetch` did: the links returned and the argument lists `(error, links)`
its callback received. -/
structure FetchResult where
  links : List Obj
  callbackCalls : List (Val × List Obj)

/-! ## The cursor -/

namespace Cursor

/-- The cursor method `fetch()`: all documents, in order. -/
def fetch (documents : List Obj) : List Obj := documents

/-- The cursor method `each(fn)`: calls `fn` once per document, in order, as a
plain call; no receiver is passed, so `this` is `undefined` in a function
expression of a class body (strict code).  A throw ends the loop. -/
def each {ρ α : Type} (documents : List Obj)
    (fn : Option ρ → Obj → Except JsError (List α)) : Run α :=
  match documents with
  | [] => { calls := [], error := none }
  | d :: ds =>
    match fn none d with
    | .error e => { calls := [], error := some e }
    | .ok cs =>
      let r := each ds fn
      { calls := cs ++ r.calls, error := r.error }

end Cursor

/-! ## The adapter -/

/-- The adapter's own state: the field mapping given to the constructor
(`this.fields`), logical name paired with physical name.  The collection handle
is passed to the methods that use it. -/
structure Graph where
  fields : List (String × String)

namespace Graph

/-- The own entry of the mapping for the logical name `f`, if it has one. -/
def ownField (g : Graph) (f : String) : Option String :=
  (g.fields.find? (fun e => e.1 = f)).map Prod.snd

/-- The logical name `f` is mapping-known: the mapping itself has an entry for `f`,
with a non-empty physical name. -/
def mapped (g : Graph) (f : String) : Bool :=
  match g.ownField f with
  | some p => p != ""
  | none => false

/-- The members that every plain object inherits from `Object.prototype`, each with
the property key its value denotes when used as `o[value]`: the text of the
function as the engine prints it, and `[object Object]` for the prototype object
that `__proto__` yields. -/
def objectPrototype : List (String × String) :=
  [("constructor", "function Object() \x7b [native code] \x7d"),
   ("__defineGetter__", "function __defineGetter__() \x7b [native code] \x7d"),
   ("__defineSetter__", "function __defineSetter__() \x7b [native code] \x7d"),
   ("hasOwnProperty", "function hasOwnProperty() \x7b [native code] \x7d"),
   ("__lookupGetter__", "function __lookupGetter__() \x7b [native code] \x7d"),
   ("__lookupSetter__", "function __lookupSetter__() \x7b [native code] \x7d"),
   ("isPrototypeOf", "function isPrototypeOf() \x7b [native code] \x7d"),
   ("propertyIsEnumerable", "function propertyIsEnumerable() \x7b [native code] \x7d"),
   ("toString", "function toString() \x7b [native code] \x7d"),
   ("valueOf", "function valueOf() \x7b [native code] \x7d"),
   ("__proto__", "[object Object]"),
   ("toLocaleString", "function toLocaleString() \x7b [native code] \x7d")]

/-- The property key of the value a plain object inherits under the name `f`, if
`f` names a member of `Object.prototype`. -/
def inheritedKey (f : String) : Option String :=
  (objectPrototype.find? (fun e => e.1 = f)).map Prod.snd

/-- The read `this.fields[f]`, as the property key it denotes: the own entry of the
mapping when there is one, else the member of `Object.prototype` of that name
(the mapping is a plain object); `none` stands for `undefined`. -/
def field (g : Graph) (f : String) : Option String :=
  match g.ownField f with
  | some p => some p
  | none => inheritedKey f

/-- The condition `if (this.fields[f])`: the mapping has `f` with a non-empty
physical name, or `f` names a member of `Object.prototype` (an inherited function
or object is truthy). -/
def known (g : Graph) (f : String) : Bool :=
  match g.field f with
  | some p => p != ""
  | none => false

/-- The property key that `this.fields[f]` denotes when used as `o[this.fields[f]]`:
the key that `field` finds, or the key `"undefined"` when the read yields
`undefined`. -/
def phys (g : Graph) (f : String) : String :=
  (g.field f).getD "undefined"

/-- The document built by the loop of `insert`. -/
def insertDocument (g : Graph) (link : Obj) : Obj :=
  (Obj.keys link).foldl
    (fun _modifier f =>
      if g.known f then Obj.set _modifier (g.phys f) (Obj.get link f) else _modifier)
    []

/-- The method `query(selector)`; `Val.undefined` is the result of falling off the end
of the function. -/
def query (g : Graph) (selector : Val) : Val :=
  if selector.typeof = "string" ∨ selector.typeof = "number" then
    Val.obj [(g.phys "id", selector)]
  else if selector.typeof = "object" then
    Val.obj <| selector.forIn.foldl
      (fun _selector m =>
        if g.known m then
          if (selector.get m).typeof = "undefined" then
            Obj.set _selector (g.phys m) (Val.obj [("$exists", Val.bool false)])
          else
            Obj.set _selector (g.phys m) (selector.get m)
        else _selector)
      []
  else Val.undefined

/-- The method `_generateLink(document)`. -/
def _generateLink (g : Graph) (document : Obj) : Obj :=
  (g.fields.map Prod.fst).foldl
    (fun link f =>
      if Obj.hasOwnProperty document (g.phys f) then
        Obj.set link f (Obj.get document (g.phys f))
      else link)
    []

/-- One step of the loop of `update`: the statement executed for the modifier
field `m`, on the modifier document built so far. -/
def updateStep (g : Graph) (modifier : Obj) (_modifier : Obj) (m : String) : Obj :=
  if g.known m then
    if (Obj.get modifier m).typeof = "undefined" then
      let m1 :=
        if !(Obj.get _modifier "$unset").truthy then Obj.set _modifier "$unset" (Val.obj [])
        else _modifier
      Obj.setIn m1 "$unset" (g.phys m) (Val.str "")
    else
      let m1 :=
        if !(Obj.get _modifier "$set").truthy then Obj.set _modifier "$set" (Val.obj [])
        else _modifier
      Obj.setIn m1 "$set" (g.phys m) (Obj.get modifier m)
  else _modifier

/-- The modifier document built by the loop of `update`. -/
def updateModifier (g : Graph) (modifier : Obj) : Obj :=
  (Obj.keys modifier).foldl (g.updateStep modifier) []

/-- The loop of `options` over the sort descriptor.  `_options.sort` and
`options.sort` are one object: the loop visits the keys the descriptor had when
the loop started, reads the flag from the object as it is at that moment and
writes the physical key into the same object. -/
def sortLoop (g : Graph) (sort : Obj) : Obj :=
  (Obj.keys sort).foldl
    (fun cur s =>
      if g.known s then
        Obj.set cur (g.phys s) (if (Obj.get cur s).truthy then Val.num 1 else Val.num (-1))
      else cur)
    sort

/-- The method `options(options)`; `none` is a missing (falsy) argument. -/
def options (g : Graph) (options : Option SelectOptions) : Obj :=
  match options with
  | none => []
  | some o =>
    let o1 : Obj :=
      match o.sort with
      | some sort => Obj.set [] "sort" (Val.obj (g.sortLoop sort))
      | none => []
    let o2 : Obj := if o.skip.typeof = "number" then Obj.set o1 "skip" o.skip else o1
    if o.limit.typeof = "number" then Obj.set o2 "limit" o.limit else o2

/-- The method `insert(link, callback)`: the result is the collection's. -/
def insert {σ κ : Type} (g : Graph) (c : Collection σ κ) (s : σ) (link : Obj)
    (callback : Option κ) : Except JsError (Val × σ) :=
  c.insert s (g.insertDocument link) callback

/-- The method `update(selector, modifier, callback)`: the collection is called
and its result dropped; the method has no `return`, so it yields `undefined`. -/
def update {σ κ : Type} (g : Graph) (c : Collection σ κ) (s : σ) (selector : Val)
    (modifier : Obj) (callback : Option κ) : Except JsError (Val × σ) :=
  match c.update s (g.query selector) (g.updateModifier modifier) callback with
  | .ok r => .ok (Val.undefined, r.2)
  | .error e => .error e

/-- The method `remove(selector, callback)`. -/
def remove {σ κ : Type} (g : Graph) (c : Collection σ κ) (s : σ) (selector : Val)
    (callback : Option κ) : Except JsError (Val × σ) :=
  match c.remove s (g.query selector) callback with
  | .ok r => .ok (Val.undefined, r.2)
  | .error e => .error e

/-- The method `_find(selector, options)`: the documents of the cursor that
`collection.find` returns.  The translated options are computed and not used. -/
def _find {σ κ : Type} (g : Graph) (c : Collection σ κ) (s : σ) (selector : Val)
    (options : Option SelectOptions) : List Obj :=
  let _selector := g.query selector
  let _options := g.options options
  c.find s _selector

/-- The method `fetch(selector, options, callback)`; `callback` tells whether
a callback was passed. -/
def fetch {σ κ : Type} (g : Graph) (c : Collection σ κ) (s : σ) (selector : Val)
    (options : Option SelectOptions) (callback : Bool) : FetchResult :=
  let documents := Cursor.fetch (g._find c s selector options)
  let links := documents.foldl (fun links d => links ++ [g._generateLink d]) []
  { links := links, callbackCalls := if callback then [(Val.undefined, links)] else [] }

/-- The function expression that `each` hands to the cursor,
`function(document) { callback(this._generateLink(document)); }`.  Its `this` is
the receiver its caller supplies, not the graph: reading `_generateLink` from a
receiver that is not a graph throws a `TypeError`.  The result lists the
arguments `callback` received. -/
def eachFunction (this : Option Graph) (document : Obj) : Except JsError (List Obj) :=
  match this with
  | some graph => .ok [graph._generateLink document]
  | none => .error JsError.typeError

/-- The method `each(selector, options, callback)`. -/
def each {σ κ : Type} (g : Graph) (c : Collection σ κ) (s : σ) (selector : Val)
    (options : Option SelectOptions) : Run Obj :=
  Cursor.each (g._find c s selector options) eachFunction

end Graph

/-! ## An in-memory collection -/

/-- Modelled from the spec: the state of the backing document collection, an
external collaborator of the adapter (section 6, "Upstream"): the stored
documents in insertion order, and the counter of the identifier generator.
Stored documents carry their identifier in the field `_id`. -/
structure Store where
  docs : List Obj
  seed : Nat

namespace Store

/-- The delete `delete o[k]`. -/
def erase : Obj → String → Obj
  | [], _ => []
  | (k', v) :: r, k => if k' = k then r else (k', v) :: erase r k

/-- Modelled from the spec: one clause `field: condition` of a physical filter
holds of a document.  The condition `{$exists: false}` holds when the document
lacks the field; any other condition is an equality with the stored value. -/
def clauseHolds (doc : Obj) (clause : String × Val) : Bool :=
  if Val.beq clause.2 (Val.obj [("$exists", Val.bool false)]) then
    !(Obj.hasOwnProperty doc clause.1)
  else
    match Obj.getOwn doc clause.1 with
    | some v => Val.beq v clause.2
    | none => false

/-- Modelled from the spec: a document matches a physical filter when every
clause holds; the filter `{}` matches every document and a filter that is not
an object (the `undefined` that `query` may return) matches none. -/
def matchesFilter (filter : Val) (doc : Obj) : Bool :=
  match filter with
  | .obj clauses => clauses.all (clauseHolds doc)
  | _ => false

/-- Some stored document has the identifier `i`. -/
def hasId (s : Store) (i : String) : Bool :=
  s.docs.any (fun d => Val.beq (Obj.get d "_id") (Val.str i))

/-- Modelled from the spec: `collection.insert(doc)`.  A document without `_id`
gets a generated identifier; a document with `_id` keeps it, which must be a
non-empty string not in use.  The identifier is returned. -/
def insert (gen : Nat → String) (s : Store) (doc : Obj) : Except JsError (Val × Store) :=
  match Obj.getOwn doc "_id" with
  | some (Val.str i) =>
    if i = "" ∨ s.hasId i then .error JsError.collectionError
    else .ok (Val.str i, { s with docs := s.docs ++ [doc] })
  | some _ => .error JsError.collectionError
  | none =>
    if gen s.seed = "" ∨ s.hasId (gen s.seed) then .error JsError.collectionError
    else .ok (Val.str (gen s.seed),
      { docs := s.docs ++ [Obj.set doc "_id" (Val.str (gen s.seed))], seed := s.seed + 1 })

/-- Modelled from the spec: the effect of a modifier document on one stored
document.  With an operator document `$set` or `$unset`, the fields of `$set` are
written and the fields of `$unset` deleted.  A modifier without these operators
is a replacement document: the stored document becomes the modifier, keeping its
`_id`. -/
def applyModifier (modifier : Obj) (doc : Obj) : Obj :=
  if Obj.hasOwnProperty modifier "$set" || Obj.hasOwnProperty modifier "$unset" then
    let afterSet :=
      match Obj.get modifier "$set" with
      | .obj ps => ps.foldl (fun d e => Obj.set d e.1 e.2) doc
      | _ => doc
    match Obj.get modifier "$unset" with
    | .obj ps => ps.foldl (fun d e => erase d e.1) afterSet
    | _ => afterSet
  else
    match Obj.getOwn doc "_id" with
    | some i => ("_id", i) :: erase modifier "_id"
    | none => modifier

/-- Modelled from the spec: `collection.update(filter, modifier)` changes the
first matching document and returns the number of documents affected. -/
def updateDocs (filter : Val) (modifier : Obj) : List Obj → Nat × List Obj
  | [] => (0, [])
  | d :: ds =>
    if matchesFilter filter d then (1, applyModifier modifier d :: ds)
    else ((updateDocs filter modifier ds).1, d :: (updateDocs filter modifier ds).2)

/-- Modelled from the spec: `collection.update(filter, modifier)`. -/
def update (s : Store) (filter : Val) (modifier : Obj) : Except JsError (Val × Store) :=
  .ok (Val.num (updateDocs filter modifier s.docs).1,
    { s with docs := (updateDocs filter modifier s.docs).2 })

/-- Modelled from the spec: `collection.remove(filter)` deletes every matching
document and returns their number. -/
def remove (s : Store) (filter : Val) : Except JsError (Val × Store) :=
  .ok (Val.num (s.docs.filter (matchesFilter filter)).length,
    { s with docs := s.docs.filter (fun d => !(matchesFilter filter d)) })

/-- Modelled from the spec: `collection.find(filter)`: the cursor over the
matching documents, in storage order. -/
def find (s : Store) (filter : Val) : List Obj :=
  s.docs.filter (matchesFilter filter)

/-- Modelled from the spec: the in-memory collection as a `Collection`, for the
identifier generator `gen`.  Completion callbacks are not run by the model. -/
def collection (gen : Nat → String) : Collection Store Unit where
  insert := fun s doc _ => insert gen s doc
  update := fun s filter modifier _ => update s filter modifier
  remove := fun s filter _ => remove s filter
  find := find

end Store

/-! ## Mapping over the cursor -/

/-- The cursor method `map(fn)`: calls `fn` once per document, in order, as a
plain call (no receiver, as for `each`), and collects the results.  A throw
ends the loop and no sequence is returned. -/
def Cursor.map {ρ β : Type} (documents : List Obj)
    (fn : Option ρ → Obj → Except JsError β) : Except JsError (List β) :=
  match documents with
  | [] => .ok []
  | d :: ds =>
    match fn none d with
    | .error e => .error e
    | .ok b =>
      match Cursor.map ds fn with
      | .error e => .error e
      | .ok bs => .ok (b :: bs)

/-- The function expression that `map` hands to the cursor,
`function(document) { return callback(this._generateLink(document)); }`.  As in
`each`, its `this` is the receiver its caller supplies, not the graph. -/
def Graph.mapFunction {β : Type} (callback : Obj → β) (this : Option Graph)
    (document : Obj) : Except JsError β :=
  match this with
  | some graph => .ok (callback (graph._generateLink document))
  | none => .error JsError.typeError

/-- The method `map(selector, options, callback)`. -/
def Graph.map {σ κ β : Type} (g : Graph) (c : Collection σ κ) (s : σ) (selector : Val)
    (options : Option SelectOptions) (callback : Obj → β) : Except JsError (List β) :=
  Cursor.map (g._find c s selector options) (Graph.mapFunction callback)

/-- The method `options(options)` run on the caller's objects: the first component
is the returned `_options`, the second is the caller's `options` object when the
method returns.  The sort descriptor is one object throughout: the assignment
`_options.sort = options.sort` stores a reference to it, so what the loop writes
through `_options.sort` is written to the caller's descriptor.  `shared` is that
one object as the loop leaves it; both components hold it. -/
def Graph.optionsRun (g : Graph) (options : Option SelectOptions) :
    Obj × Option SelectOptions :=
  match options with
  | none => ([], none)
  | some o =>
    match o.sort with
    | some sort =>
      let shared : Obj := g.sortLoop sort
      let o1 : Obj := Obj.set [] "sort" (Val.obj shared)
      let o2 : Obj := if o.skip.typeof = "number" then Obj.set o1 "skip" o.skip else o1
      let o3 : Obj := if o.limit.typeof = "number" then Obj.set o2 "limit" o.limit else o2
      (o3, some { o with sort := some shared })
    | none =>
      let o2 : Obj := if o.skip.typeof = "number" then Obj.set [] "skip" o.skip else []
      let o3 : Obj := if o.limit.typeof = "number" then Obj.set o2 "limit" o.limit else o2
      (o3, some o)

/-! ## Change notifications -/

/-- One call of a subscriber's callback: which callback, and the arguments
`(oldLink, newLink, context)` it received. -/
structure Invocation (κ : Type) where
  callback : κ
  oldLink : Val
  newLink : Val
  context : Val

/-- A function registered with `after.insert` or `after.remove`,
`function(userId, document)`; the result lists the callback calls it makes. -/
abbrev DocumentHook (κ : Type) := Val → Obj → List (Invocation κ)

/-- A function registered with `after.update`, `function(userId, doc, ...)`; its
first argument here is `this.previous`, the document before the mutation. -/
abbrev UpdateHook (κ : Type) := Obj → Val → Obj → List (Invocation κ)

/-- Modelled from the spec: the post-mutation hooks of the backing collection
(section 6, `after.insert(fn)`, `after.update(fn)`, `after.remove(fn)`), each
list in registration order. -/
structure Hooks (κ : Type) where
  afterInsert : List (DocumentHook κ)
  afterUpdate : List (UpdateHook κ)
  afterRemove : List (DocumentHook κ)

/-- Modelled from the spec: what the collection reports after a mutation: the
acting user and the document (for an update, the document before and after). -/
inductive Notification where
  | inserted (userId : Val) (document : Obj)
  | updated (userId : Val) (previous : Obj) (doc : Obj)
  | removed (userId : Val) (document : Obj)

namespace Hooks

/-- The registry without hooks. -/
def empty {κ : Type} : Hooks κ := { afterInsert := [], afterUpdate := [], afterRemove := [] }

/-- Modelled from the spec: `collection.after.insert(fn)` registers one more hook;
registering twice gives two hooks. -/
def registerInsert {κ : Type} (h : Hooks κ) (fn : DocumentHook κ) : Hooks κ :=
  { h with afterInsert := h.afterInsert ++ [fn] }

/-- Modelled from the spec: `collection.after.update(fn)`. -/
def registerUpdate {κ : Type} (h : Hooks κ) (fn : UpdateHook κ) : Hooks κ :=
  { h with afterUpdate := h.afterUpdate ++ [fn] }

/-- Modelled from the spec: `collection.after.remove(fn)`. -/
def registerRemove {κ : Type} (h : Hooks κ) (fn : DocumentHook κ) : Hooks κ :=
  { h with afterRemove := h.afterRemove ++ [fn] }

/-- Modelled from the spec: after a mutation the collection runs every hook
registered for that kind of mutation, in registration order; the result lists
the callback calls made. -/
def fire {κ : Type} (h : Hooks κ) : Notification → List (Invocation κ)
  | .inserted userId document => h.afterInsert.flatMap (fun fn => fn userId document)
  | .updated userId previous doc => h.afterUpdate.flatMap (fun fn => fn previous userId doc)
  | .removed userId document => h.afterRemove.flatMap (fun fn => fn userId document)

/-- The callback calls made over a sequence of mutations. -/
def fireAll {κ : Type} (h : Hooks κ) (ns : List Notification) : List (Invocation κ) :=
  ns.flatMap h.fire

end Hooks

/-- The method `on(event, callback)`, on the hook registry of the collection:
five `if` statements in sequence.  `graph` is the captured `this`. -/
def Graph.on {κ : Type} (graph : Graph) (event : String) (callback : κ) (hooks : Hooks κ) :
    Hooks κ :=
  let h1 :=
    if event = "insert" then
      hooks.registerInsert (fun userId document =>
        [{ callback := callback, oldLink := Val.undefined,
           newLink := Val.obj (graph._generateLink document),
           context := Val.obj [("userId", userId)] }])
    else hooks
  let h2 :=
    if event = "update" then
      h1.registerUpdate (fun previous userId doc =>
        [{ callback := callback, oldLink := Val.obj (graph._generateLink previous),
           newLink := Val.obj (graph._generateLink doc),
           context := Val.obj [("userId", userId)] }])
    else h1
  let h3 :=
    if event = "remove" then
      h2.registerRemove (fun userId document =>
        [{ callback := callback, oldLink := Val.obj (graph._generateLink document),
           newLink := Val.undefined,
           context := Val.obj [("userId", userId)] }])
    else h2
  let h4 :=
    if event = "link" then
      (h3.registerInsert (fun userId document =>
        [{ callback := callback, oldLink := Val.undefined,
           newLink := Val.obj (graph._generateLink document),
           context := Val.obj [("userId", userId)] }])).registerUpdate
        (fun previous userId doc =>
        [{ callback := callback, oldLink := Val.obj (graph._generateLink previous),
           newLink := Val.obj (graph._generateLink doc),
           context := Val.obj [("userId", userId)] }])
    else h3
  if event = "unlink" then
    (h4.registerUpdate (fun previous userId doc =>
      [{ callback := callback, oldLink := Val.obj (graph._generateLink previous),
         newLink := Val.obj (graph._generateLink doc),
         context := Val.obj [("userId", userId)] }])).registerRemove
      (fun userId document =>
      [{ callback := callback, oldLink := Val.obj (graph._generateLink document),
         newLink := Val.undefined,
         context := Val.obj [("userId", userId)] }])
  else h4

/-! ## Auxiliary definitions -/

/-- The own property under which a nested operator document is found: absent while the
operator document is empty (not yet created), an object afterwards. -/
def optObj : Obj → Option Val
  | [] => none
  | e :: r => some (Val.obj (e :: r))

/-- The `$unset` document after the loop of `update` has visited the fields `fs`,
starting from the `$unset` document `init`. -/
def Graph.unsetPart (g : Graph) (modifier : Obj) (fs : List String) (init : Obj) : Obj :=
  fs.foldl
    (fun acc m =>
      if (g.known m && decide ((Obj.get modifier m).typeof = "undefined")) = true then
        Obj.set acc (g.phys m) (Val.str "")
      else acc)
    init

/-- The `$set` document after the loop of `update` has visited the fields `fs`,
starting from the `$set` document `init`. -/
def Graph.setPart (g : Graph) (modifier : Obj) (fs : List String) (init : Obj) : Obj :=
  fs.foldl
    (fun acc m =>
      if (g.known m && !decide ((Obj.get modifier m).typeof = "undefined")) = true then
        Obj.set acc (g.phys m) (Obj.get modifier m)
      else acc)
    init

/-- The document built so far by the loop of `update`: `$unset` and `$set` hold the two
operator documents, and there is no other property. -/
def Graph.ModifierParts (acc unsetDoc setDoc : Obj) : Prop :=
  Obj.getOwn acc "$unset" = optObj unsetDoc ∧ Obj.getOwn acc "$set" = optObj setDoc ∧
    ∀ p, p ≠ "$unset" → p ≠ "$set" → Obj.getOwn acc p = none

/-! ## Sample data -/

namespace Graph

/-- The mapping of the specification's example. -/
def sampleGraph : Graph := ⟨[("id", "_id"), ("source", "from"), ("target", "to")]⟩

/-- A mapping without an entry for `id`. -/
def noIdGraph : Graph := ⟨[("source", "from"), ("target", "to")]⟩

/-- A mapping that stores the two logical fields `source` and `target` under the one
physical name `node`. -/
def collidingGraph : Graph := ⟨[("source", "node"), ("target", "node")]⟩

/-- A store holding the one document `{_id: 'x', from: 'a', to: 'b'}`. -/
def sampleStore : Store :=
  { docs := [[("_id", Val.str "x"), ("from", Val.str "a"), ("to", Val.str "b")]], seed := 0 }

/-- An identifier generator: the identifiers `n`, `nn`, `nnn`, ... -/
def sampleGen (n : Nat) : String := String.mk (List.replicate (n + 1) 'n')

/-- A mapping that stores `source` and `target` under their own names. -/
def identityGraph : Graph := ⟨[("id", "_id"), ("source", "source"), ("target", "target")]⟩

end Graph

/-! ## Decidable equality of values -/

mutual
theorem Val.beq_iff : ∀ (a b : Val), Val.beq a b = true ↔ a = b
  | .undefined, b => by cases b <;> simp [Val.beq]
  | .null, b => by cases b <;> simp [Val.beq]
  | .bool x, b => by cases b <;> simp [Val.beq]
  | .num x, b => by cases b <;> simp [Val.beq]
  | .str x, b => by cases b <;> simp [Val.beq]
  | .obj x, b => by
      cases b <;> simp [Val.beq]
      exact Val.beqProps_iff x _
theorem Val.beqProps_iff :
    ∀ (a b : List (String × Val)), Val.beqProps a b = true ↔ a = b
  | [], b => by cases b <;> simp [Val.beqProps]
  | (k, v) :: r, b => by
      cases b with
      | nil => simp [Val.beqProps]
      | cons h t =>
        obtain ⟨k2, v2⟩ := h
        simp [Val.beqProps, Val.beq_iff v v2, Val.beqProps_iff r t, and_assoc]
end

instance : DecidableEq Val := fun a b => decidable_of_iff _ (Val.beq_iff a b)

/-! ## Property lists -/

namespace Obj

theorem getOwn_set_self (o : Obj) (k : String) (v : Val) :
    getOwn (set o k v) k = some v := by
  induction o with
  | nil => simp [set, getOwn]
  | cons e r ih =>
    obtain ⟨k', v'⟩ := e
    by_cases h : k' = k
    · simp [set, getOwn, h]
    · simp [set, getOwn, h, ih]

theorem getOwn_set_ne (o : Obj) {k p : String} (v : Val) (h : k ≠ p) :
    getOwn (set o k v) p = getOwn o p := by
  induction o with
  | nil => simp [set, getOwn, h]
  | cons e r ih =>
    obtain ⟨k', v'⟩ := e
    by_cases hk : k' = k
    · subst hk
      simp [set, getOwn, h]
    · by_cases hp : k' = p
      · subst hp
        simp [set, getOwn, hk]
      · simp [set, getOwn, hk, hp, ih]

theorem getOwn_set (o : Obj) (k p : String) (v : Val) :
    getOwn (set o k v) p = if k = p then some v else getOwn o p := by
  by_cases h : k = p
  · subst h
    simp [getOwn_set_self]
  · simp [h, getOwn_set_ne o v h]

theorem getOwn_isSome_iff_mem_keys (o : Obj) (k : String) :
    (getOwn o k).isSome = true ↔ k ∈ keys o := by
  induction o with
  | nil => simp [getOwn, keys]
  | cons e r ih =>
    obtain ⟨k', v'⟩ := e
    by_cases h : k' = k
    · simp [getOwn, keys, h]
    · have h' : ¬ k = k' := fun e => h e.symm
      simpa [getOwn, keys, h, h'] using ih

theorem getOwn_eq_some_get {o : Obj} {k : String} (h : k ∈ keys o) :
    getOwn o k = some (get o k) := by
  have := (getOwn_isSome_iff_mem_keys o k).2 h
  unfold get
  cases hk : getOwn o k with
  | none => simp [hk] at this
  | some v => rfl

theorem getOwn_eq_none_of_not_mem {o : Obj} {k : String} (h : k ∉ keys o) :
    getOwn o k = none := by
  cases hk : getOwn o k with
  | none => rfl
  | some v =>
    exact absurd ((getOwn_isSome_iff_mem_keys o k).1 (by simp [hk])) h

/-- The loop shape shared by `insert`, `query` and `_generateLink`: for each
visited name `f` that passes the test `P`, write `V f` under the key `K f`. -/
theorem getOwn_foldl_set_of_forall_ne (P : String → Bool) (K : String → String)
    (V : String → Val) (p : String) (fs : List String) (init : Obj)
    (h : ∀ f ∈ fs, P f = true → K f ≠ p) :
    getOwn (fs.foldl (fun acc f => if P f = true then set acc (K f) (V f) else acc) init) p
      = getOwn init p := by
  induction fs generalizing init with
  | nil => rfl
  | cons a t ih =>
    have ht : ∀ f ∈ t, P f = true → K f ≠ p := fun f hf => h f (List.mem_cons_of_mem _ hf)
    rw [List.foldl_cons, ih _ ht]
    by_cases hP : P a = true
    · simp [hP, getOwn_set_ne _ _ (h a (List.mem_cons_self _ _) hP)]
    · simp [hP]

theorem getOwn_foldl_set_eq_some (P : String → Bool) (K : String → String)
    (V : String → Val) (p : String) (v : Val) (fs : List String) (init : Obj)
    (hv : ∀ f ∈ fs, P f = true → K f = p → V f = v)
    (h : getOwn init p = some v ∨ ∃ f ∈ fs, P f = true ∧ K f = p) :
    getOwn (fs.foldl (fun acc f => if P f = true then set acc (K f) (V f) else acc) init) p
      = some v := by
  induction fs generalizing init with
  | nil =>
    rcases h with h | ⟨f, hf, _⟩
    · exact h
    · simp at hf
  | cons a t ih =>
    have hvt : ∀ f ∈ t, P f = true → K f = p → V f = v :=
      fun f hf => hv f (List.mem_cons_of_mem _ hf)
    rw [List.foldl_cons]
    apply ih _ hvt
    by_cases hP : P a = true
    · by_cases hK : K a = p
      · left
        simp [hP, hK, getOwn_set_self, hv a (List.mem_cons_self _ _) hP hK]
      · rcases h with h | ⟨f, hf, hPf, hKf⟩
        · left
          simp [hP, getOwn_set_ne _ _ hK, h]
        · rcases List.mem_cons.1 hf with rfl | hft
          · exact absurd hKf hK
          · exact Or.inr ⟨f, hft, hPf, hKf⟩
    · rcases h with h | ⟨f, hf, hPf, hKf⟩
      · left
        simp [hP, h]
      · rcases List.mem_cons.1 hf with rfl | hft
        · exact absurd hPf hP
        · exact Or.inr ⟨f, hft, hPf, hKf⟩

theorem getOwn_foldl_set_isSome (P : String → Bool) (K : String → String)
    (V : String → Val) (p : String) (fs : List String) (init : Obj)
    (h : (getOwn (fs.foldl (fun acc f => if P f = true then set acc (K f) (V f) else acc)
      init) p).isSome = true) :
    (getOwn init p).isSome = true ∨ ∃ f ∈ fs, P f = true ∧ K f = p := by
  by_cases hex : ∃ f ∈ fs, P f = true ∧ K f = p
  · exact Or.inr hex
  · left
    rw [getOwn_foldl_set_of_forall_ne P K V p fs init] at h
    · exact h
    · intro f hf hP hK
      exact hex ⟨f, hf, hP, hK⟩

theorem get_of_getOwn {o : Obj} {k : String} {v : Val} (h : getOwn o k = some v) :
    get o k = v := by
  simp [get, h]

theorem getOwn_setIn_self (o inner : Obj) (k1 k2 : String) (v : Val)
    (h : get o k1 = Val.obj inner) :
    getOwn (setIn o k1 k2 v) k1 = some (Val.obj (set inner k2 v)) := by
  simp [setIn, h, getOwn_set_self]

theorem getOwn_setIn_ne (o inner : Obj) (k1 k2 : String) (v : Val) {p : String}
    (h : get o k1 = Val.obj inner) (hp : k1 ≠ p) :
    getOwn (setIn o k1 k2 v) p = getOwn o p := by
  simp [setIn, h, getOwn_set_ne _ _ hp]

theorem optObj_set (o : Obj) (k : String) (v : Val) :
    optObj (set o k v) = some (Val.obj (set o k v)) := by
  cases o with
  | nil => rfl
  | cons e r =>
    obtain ⟨k', v'⟩ := e
    by_cases h : k' = k <;> simp [set, h, optObj]

/-- Creating the operator document `op` when it is missing leaves the other properties
alone and makes `o[op]` the operator document built so far. -/
theorem ensure_operator (o part : Obj) (op : String) (h : getOwn o op = optObj part) :
    get (if (!(get o op).truthy) = true then set o op (Val.obj []) else o) op = Val.obj part ∧
    ∀ p, op ≠ p →
      getOwn (if (!(get o op).truthy) = true then set o op (Val.obj []) else o) p
        = getOwn o p := by
  cases part with
  | nil =>
    have hg : get o op = Val.undefined := by simp [get, h, optObj]
    simp only [hg, Val.truthy]
    refine ⟨?_, ?_⟩
    · simp [get, getOwn_set_self]
    · intro p hp
      simp [getOwn_set_ne _ _ hp]
  | cons e r =>
    have hg : get o op = Val.obj (e :: r) := by simp [get, h, optObj]
    simp [hg, Val.truthy]

theorem mem_keys_set {o : Obj} {k : String} (p : String) (v : Val) (h : k ∈ keys o) :
    k ∈ keys (set o p v) := by
  rw [← getOwn_isSome_iff_mem_keys] at h ⊢
  rw [getOwn_set]
  split_ifs
  · rfl
  · exact h

theorem eq_nil_of_getOwn_eq_none {o : Obj} (h : ∀ k, getOwn o k = none) : o = [] := by
  cases o with
  | nil => rfl
  | cons e r =>
    have := h e.1
    simp [getOwn] at this

/-- The loop shape of the sort translation: as above, with a written value that may
depend on the object as it is when the field is visited. -/
theorem getOwn_foldl_setW_of_forall_ne (P : String → Bool) (K : String → String)
    (W : Obj → String → Val) (p : String) (fs : List String) (init : Obj)
    (h : ∀ f ∈ fs, P f = true → K f ≠ p) :
    getOwn (fs.foldl (fun acc f => if P f = true then set acc (K f) (W acc f) else acc) init) p
      = getOwn init p := by
  induction fs generalizing init with
  | nil => rfl
  | cons a t ih =>
    have ht : ∀ f ∈ t, P f = true → K f ≠ p := fun f hf => h f (List.mem_cons_of_mem _ hf)
    rw [List.foldl_cons, ih _ ht]
    by_cases hP : P a = true
    · simp [hP, getOwn_set_ne _ _ (h a (List.mem_cons_self _ _) hP)]
    · simp [hP]

theorem getOwn_foldl_setW_exists (P : String → Bool) (K : String → String)
    (W : Obj → String → Val) (Q : Val → Prop) (p : String) (fs : List String) (init : Obj)
    (hQ : ∀ acc f, Q (W acc f))
    (h : (∃ v, getOwn init p = some v ∧ Q v) ∨ ∃ f ∈ fs, P f = true ∧ K f = p) :
    ∃ v, getOwn (fs.foldl (fun acc f => if P f = true then set acc (K f) (W acc f) else acc)
      init) p = some v ∧ Q v := by
  induction fs generalizing init with
  | nil =>
    rcases h with h | ⟨f, hf, _⟩
    · exact h
    · simp at hf
  | cons a t ih =>
    rw [List.foldl_cons]
    apply ih
    by_cases hP : P a = true
    · by_cases hK : K a = p
      · left
        exact ⟨W init a, by simp [hP, hK, getOwn_set_self], hQ _ _⟩
      · rcases h with ⟨v, hv, hq⟩ | ⟨f, hf, hPf, hKf⟩
        · left
          exact ⟨v, by simp [hP, getOwn_set_ne _ _ hK, hv], hq⟩
        · rcases List.mem_cons.1 hf with rfl | hft
          · exact absurd hKf hK
          · exact Or.inr ⟨f, hft, hPf, hKf⟩
    · rcases h with ⟨v, hv, hq⟩ | ⟨f, hf, hPf, hKf⟩
      · left
        exact ⟨v, by simp [hP, hv], hq⟩
      · rcases List.mem_cons.1 hf with rfl | hft
        · exact absurd hPf hP
        · exact Or.inr ⟨f, hft, hPf, hKf⟩

theorem mem_keys_foldl_setW (P : String → Bool) (K : String → String)
    (W : Obj → String → Val) (k : String) (fs : List String) (init : Obj)
    (h : k ∈ keys init) :
    k ∈ keys (fs.foldl (fun acc f => if P f = true then set acc (K f) (W acc f) else acc)
      init) := by
  induction fs generalizing init with
  | nil => exact h
  | cons a t ih =>
    rw [List.foldl_cons]
    apply ih
    by_cases hP : P a = true
    · simp only [hP, if_true]
      exact mem_keys_set _ _ h
    · simp only [hP]
      exact h

end Obj

/-! ## The in-memory collection -/

namespace Store

theorem insert_ok {gen : Nat → String} {s s' : Store} {doc : Obj} {i : Val}
    (h : insert gen s doc = .ok (i, s')) :
    ∃ i0 d', i = Val.str i0 ∧ s.hasId i0 = false ∧ s'.docs = s.docs ++ [d'] ∧
      Obj.getOwn d' "_id" = some (Val.str i0) ∧
      (∀ p, "_id" ≠ p → Obj.getOwn d' p = Obj.getOwn doc p) ∧
      (∀ v, Obj.getOwn doc "_id" = some v → v = Val.str i0) := by
  unfold insert at h
  split at h
  · next i0 hdoc =>
    split at h
    · cases h
    · next hc =>
      simp only [Except.ok.injEq, Prod.mk.injEq] at h
      obtain ⟨hi, hs⟩ := h
      refine ⟨i0, doc, hi.symm, ?_, ?_, hdoc, fun _ _ => rfl, ?_⟩
      · simpa using (not_or.1 hc).2
      · rw [← hs]
      · intro v hv
        rw [hdoc] at hv
        exact (Option.some.inj hv).symm
  · cases h
  · next hdoc =>
    split at h
    · cases h
    · next hc =>
      simp only [Except.ok.injEq, Prod.mk.injEq] at h
      obtain ⟨hi, hs⟩ := h
      refine ⟨gen s.seed, Obj.set doc "_id" (Val.str (gen s.seed)), hi.symm, ?_, ?_,
        Obj.getOwn_set_self _ _ _, fun p hp => Obj.getOwn_set_ne _ _ hp, ?_⟩
      · simpa using (not_or.1 hc).2
      · rw [← hs]
      · intro v hv
        rw [hdoc] at hv
        cases hv

theorem beq_self (v : Val) : Val.beq v v = true := (Val.beq_iff v v).2 rfl

theorem matchesFilter_id_of_getOwn {d : Obj} {i0 : String}
    (h : Obj.getOwn d "_id" = some (Val.str i0)) :
    matchesFilter (Val.obj [("_id", Val.str i0)]) d = true := by
  simp [matchesFilter, clauseHolds, Val.beq, h]

theorem matchesFilter_id_false {d : Obj} {i0 : String}
    (h : Val.beq (Obj.get d "_id") (Val.str i0) = false) :
    matchesFilter (Val.obj [("_id", Val.str i0)]) d = false := by
  simp only [matchesFilter, List.all_cons, List.all_nil, Bool.and_true, clauseHolds, Val.beq]
  cases hd : Obj.getOwn d "_id" with
  | none => simp
  | some v =>
    have : Obj.get d "_id" = v := Obj.get_of_getOwn hd
    rw [this] at h
    simp [h]

theorem find_id_after_insert {s s' : Store} {d' : Obj} {i0 : String}
    (hfree : s.hasId i0 = false) (hdocs : s'.docs = s.docs ++ [d'])
    (hid : Obj.getOwn d' "_id" = some (Val.str i0)) :
    find s' (Val.obj [("_id", Val.str i0)]) = [d'] := by
  unfold find
  rw [hdocs, List.filter_append]
  have hold : s.docs.filter (matchesFilter (Val.obj [("_id", Val.str i0)])) = [] := by
    rw [List.filter_eq_nil_iff]
    intro d hd
    unfold hasId at hfree
    rw [List.any_eq_false] at hfree
    have := hfree d hd
    simp [matchesFilter_id_false (Bool.eq_false_iff.2 this)]
  rw [hold]
  simp [matchesFilter_id_of_getOwn hid]

end Store

/-! ## The loops of the adapter -/

namespace Graph

theorem mem_fields_of_ownField {g : Graph} {f p : String} (h : g.ownField f = some p) :
    f ∈ g.fields.map Prod.fst := by
  unfold ownField at h
  cases hfd : g.fields.find? (fun e => decide (e.1 = f)) with
  | none => simp [hfd] at h
  | some e =>
    have hmem := List.mem_of_find?_eq_some hfd
    have hkey := List.find?_some hfd
    simp only [decide_eq_true_eq] at hkey
    rw [← hkey]
    exact List.mem_map_of_mem _ hmem

theorem mem_fields_of_mapped {g : Graph} {f : String} (h : g.mapped f = true) :
    f ∈ g.fields.map Prod.fst := by
  unfold mapped at h
  cases hf : g.ownField f with
  | none => simp [hf] at h
  | some p => exact mem_fields_of_ownField hf

/-- A mapping-known field passes the test `if (this.fields[f])`. -/
theorem known_of_mapped {g : Graph} {f : String} (h : g.mapped f = true) :
    g.known f = true := by
  unfold mapped at h
  unfold known field
  cases hf : g.ownField f with
  | none => simp [hf] at h
  | some p => simpa [hf] using h

/-- A field that passes the test `if (this.fields[f])` and does not bear the name of a
member of `Object.prototype` is mapping-known. -/
theorem mapped_of_known {g : Graph} {f : String} (h : g.known f = true)
    (hplain : inheritedKey f = none) : g.mapped f = true := by
  unfold known field at h
  unfold mapped
  cases hf : g.ownField f with
  | none => simp [hf, hplain] at h
  | some p => simpa [hf] using h

/-- On an object whose fields outside the mapping do not bear the name of a member of
`Object.prototype`, the fields that pass the test `if (this.fields[f])` are the
mapping-known ones. -/
theorem mapped_of_known_of_plain {g : Graph} {fs : List String}
    (hplain : ∀ f ∈ fs, g.ownField f = none → inheritedKey f = none)
    {f : String} (hf : f ∈ fs) (h : g.known f = true) : g.mapped f = true := by
  unfold known field at h
  unfold mapped
  cases hown : g.ownField f with
  | none => simp [hown, hplain f hf hown] at h
  | some p => simpa [hown] using h

theorem ownField_of_field {g : Graph} {f p : String} (h : g.field f = some p)
    (hplain : inheritedKey f = none) : g.ownField f = some p := by
  unfold field at h
  cases hf : g.ownField f with
  | none => simp [hf, hplain] at h
  | some q => simpa [hf] using h

theorem typeof_eq_undefined_iff (v : Val) : v.typeof = "undefined" ↔ v = Val.undefined := by
  cases v <;> simp [Val.typeof]

/-- The loop of `query` over an object selector, as one conditional write per visited
field. -/
theorem query_obj (g : Graph) (S : Obj) :
    g.query (Val.obj S) = Val.obj ((Obj.keys S).foldl
      (fun acc m => if g.known m = true then
        Obj.set acc (g.phys m)
          (if Obj.get S m = Val.undefined then Val.obj [("$exists", Val.bool false)]
            else Obj.get S m)
        else acc) []) := by
  have hfun : (fun (_selector : Obj) (m : String) =>
        if g.known m = true then
          if ((Val.obj S).get m).typeof = "undefined" then
            Obj.set _selector (g.phys m) (Val.obj [("$exists", Val.bool false)])
          else
            Obj.set _selector (g.phys m) ((Val.obj S).get m)
        else _selector) =
      (fun acc m => if g.known m = true then
        Obj.set acc (g.phys m)
          (if Obj.get S m = Val.undefined then Val.obj [("$exists", Val.bool false)]
            else Obj.get S m)
        else acc) := by
    funext acc m
    simp only [Val.get, typeof_eq_undefined_iff]
    split_ifs <;> rfl
  have hobj : (Val.obj S).typeof = "object" := rfl
  unfold query
  rw [hfun]
  simp [hobj, Val.forIn]

/-- The field written for a mapping-known field of the link whose physical name no
other mapping-known field of the link shares. -/
theorem getOwn_insertDocument (g : Graph) (link : Obj) (f : String)
    (hf : f ∈ Obj.keys link) (hknown : g.known f = true)
    (hdistinct : ∀ f' ∈ Obj.keys link, g.known f' = true → g.phys f' = g.phys f → f' = f) :
    Obj.getOwn (g.insertDocument link) (g.phys f) = Obj.getOwn link f := by
  rw [Obj.getOwn_eq_some_get hf]
  unfold insertDocument
  apply Obj.getOwn_foldl_set_eq_some g.known g.phys (fun f => Obj.get link f)
  · intro f' hf' hk hp
    rw [hdistinct f' hf' hk hp]
  · exact Or.inr ⟨f, hf, hknown, rfl⟩

/-- Every field of the submitted document is the physical name of a mapping-known field
of the link. -/
theorem insertDocument_fields (g : Graph) (link : Obj) (p : String)
    (hp : Obj.hasOwnProperty (g.insertDocument link) p = true) :
    ∃ f' ∈ Obj.keys link, g.known f' = true ∧ g.phys f' = p := by
  unfold insertDocument Obj.hasOwnProperty at hp
  rcases Obj.getOwn_foldl_set_isSome g.known g.phys (fun f => Obj.get link f) p _ _ hp
    with h | h
  · simp [Obj.getOwn] at h
  · exact h

theorem modifierParts_step (g : Graph) (modifier acc unsetDoc setDoc : Obj) (m : String)
    (h : ModifierParts acc unsetDoc setDoc) :
    ModifierParts (g.updateStep modifier acc m)
      (g.unsetPart modifier [m] unsetDoc) (g.setPart modifier [m] setDoc) := by
  obtain ⟨hu, hs, ho⟩ := h
  have hne : ("$unset" : String) ≠ "$set" := by decide
  have hne' : ("$set" : String) ≠ "$unset" := by decide
  unfold updateStep unsetPart setPart
  by_cases hk : g.known m = true
  · by_cases ht : (Obj.get modifier m).typeof = "undefined"
    · obtain ⟨hget, hrest⟩ := Obj.ensure_operator acc unsetDoc "$unset" hu
      simp only [hk, ht, if_true, List.foldl_cons, List.foldl_nil, Bool.true_and,
        decide_True, Bool.not_true, Bool.false_eq_true, if_false]
      refine ⟨?_, ?_, ?_⟩
      · rw [Obj.getOwn_setIn_self _ _ _ _ _ hget, Obj.optObj_set]
      · rw [Obj.getOwn_setIn_ne _ _ _ _ _ hget hne, hrest _ hne, hs]
      · intro p hp1 hp2
        rw [Obj.getOwn_setIn_ne _ _ _ _ _ hget (Ne.symm hp1), hrest _ (Ne.symm hp1)]
        exact ho p hp1 hp2
    · obtain ⟨hget, hrest⟩ := Obj.ensure_operator acc setDoc "$set" hs
      simp only [hk, ht, if_true, List.foldl_cons, List.foldl_nil, Bool.true_and,
        decide_False, Bool.not_false, Bool.false_eq_true, if_false]
      refine ⟨?_, ?_, ?_⟩
      · rw [Obj.getOwn_setIn_ne _ _ _ _ _ hget hne', hrest _ hne', hu]
      · rw [Obj.getOwn_setIn_self _ _ _ _ _ hget, Obj.optObj_set]
      · intro p hp1 hp2
        rw [Obj.getOwn_setIn_ne _ _ _ _ _ hget (Ne.symm hp2), hrest _ (Ne.symm hp2)]
        exact ho p hp1 hp2
  · simp only [hk, Bool.false_eq_true, if_false, List.foldl_cons, List.foldl_nil,
      Bool.false_and]
    exact ⟨hu, hs, ho⟩

theorem modifierParts_foldl (g : Graph) (modifier : Obj) (fs : List String)
    (acc unsetDoc setDoc : Obj) (h : ModifierParts acc unsetDoc setDoc) :
    ModifierParts (fs.foldl (g.updateStep modifier) acc)
      (g.unsetPart modifier fs unsetDoc) (g.setPart modifier fs setDoc) := by
  induction fs generalizing acc unsetDoc setDoc with
  | nil => exact h
  | cons a t ih =>
    have := ih _ _ _ (modifierParts_step g modifier acc unsetDoc setDoc a h)
    simpa [unsetPart, setPart] using this

theorem modifierParts_updateModifier (g : Graph) (modifier : Obj) :
    ModifierParts (g.updateModifier modifier)
      (g.unsetPart modifier (Obj.keys modifier) [])
      (g.setPart modifier (Obj.keys modifier) []) :=
  modifierParts_foldl g modifier _ [] [] []
    ⟨rfl, rfl, fun _ _ _ => rfl⟩

theorem optObj_of_getOwn {o : Obj} {p : String} {v : Val} (h : Obj.getOwn o p = some v) :
    optObj o = some (Val.obj o) := by
  cases o with
  | nil => simp [Obj.getOwn] at h
  | cons e r => rfl

theorem optObj_eq_some {o part : Obj} (h : optObj o = some (Val.obj part)) : part = o := by
  cases o with
  | nil => simp [optObj] at h
  | cons e r =>
    simp only [optObj, Option.some.injEq, Val.obj.injEq] at h
    exact h.symm

theorem foldl_push_eq_map {α β : Type} (f : α → β) (xs : List α) (acc : List β) :
    xs.foldl (fun links d => links ++ [f d]) acc = acc ++ xs.map f := by
  induction xs generalizing acc with
  | nil => simp
  | cons x t ih => simp [ih]

theorem getOwn_generateLink (g : Graph) (document : Obj) (k : String) :
    Obj.getOwn (g._generateLink document) k
      = if k ∈ g.fields.map Prod.fst ∧ Obj.hasOwnProperty document (g.phys k) = true then
          Obj.getOwn document (g.phys k)
        else none := by
  unfold _generateLink
  by_cases h : k ∈ g.fields.map Prod.fst ∧ Obj.hasOwnProperty document (g.phys k) = true
  · rw [if_pos h]
    have hget : Obj.getOwn document (g.phys k) = some (Obj.get document (g.phys k)) :=
      Obj.getOwn_eq_some_get ((Obj.getOwn_isSome_iff_mem_keys _ _).1 h.2)
    rw [hget]
    apply Obj.getOwn_foldl_set_eq_some (fun f => Obj.hasOwnProperty document (g.phys f))
      (fun f => f) (fun f => Obj.get document (g.phys f))
    · intro f _ _ hfk
      rw [hfk]
    · exact Or.inr ⟨k, h.1, h.2, rfl⟩
  · rw [if_neg h]
    rw [Obj.getOwn_foldl_set_of_forall_ne (fun f => Obj.hasOwnProperty document (g.phys f))
      (fun f => f) (fun f => Obj.get document (g.phys f))]
    · rfl
    · intro f hf hP hfk
      subst hfk
      exact h ⟨hf, hP⟩

theorem fetch_links_eq_map {σ κ : Type} (g : Graph) (c : Collection σ κ) (s : σ)
    (selector : Val) (options : Option SelectOptions) (callback : Bool) :
    (g.fetch c s selector options callback).links
      = (c.find s (g.query selector)).map g._generateLink := by
  simp [fetch, _find, Cursor.fetch, foldl_push_eq_map]

/-- Whatever the collection answers, the value `update` returns is `undefined`. -/
theorem update_result_undefined {σ κ : Type} (g : Graph) (c : Collection σ κ) (s : σ)
    (selector : Val) (modifier : Obj) (callback : Option κ) (r : Val × σ)
    (h : g.update c s selector modifier callback = .ok r) : r.1 = Val.undefined := by
  unfold update at h
  split at h
  · cases h
    rfl
  · cases h

/-- Whenever the selector matches a document, `each` throws and invokes no callback. -/
theorem each_error_of_find_ne_nil {σ κ : Type} (g : Graph) (c : Collection σ κ) (s : σ)
    (selector : Val) (options : Option SelectOptions)
    (h : c.find s (g.query selector) ≠ []) :
    g.each c s selector options = { calls := [], error := some JsError.typeError } := by
  unfold each _find
  cases hd : c.find s (g.query selector) with
  | nil => exact absurd hd h
  | cons d ds => simp [Cursor.each, eachFunction]

/-! ## C1: round trip through insert and fetch -/

/-- C1, as stated, fails: the collection adds the identifier it generates to the stored
document, and `fetch` returns a sequence.  For the link `{source: 'a', target: 'b'}` the
round trip yields `[{id: <identifier>, source: 'a', target: 'b'}]`, whose one Link has the
field `id` that the inserted link lacks. -/
theorem insert_fetch_adds_id :
    sampleGraph.insert (Store.collection sampleGen) { docs := [], seed := 0 }
        [("source", Val.str "a"), ("target", Val.str "b")] none
      = .ok (Val.str "n",
          { docs := [[("from", Val.str "a"), ("to", Val.str "b"), ("_id", Val.str "n")]],
            seed := 1 }) ∧
    (sampleGraph.fetch (Store.collection sampleGen)
        { docs := [[("from", Val.str "a"), ("to", Val.str "b"), ("_id", Val.str "n")]],
          seed := 1 }
        (Val.str "n") none false).links
      = [[("id", Val.str "n"), ("source", Val.str "a"), ("target", Val.str "b")]] ∧
    ¬ Obj.Same [("id", Val.str "n"), ("source", Val.str "a"), ("target", Val.str "b")]
        [("source", Val.str "a"), ("target", Val.str "b")] := by
  refine ⟨rfl, by decide, ?_⟩
  intro h
  have := h "id"
  simp [Obj.getOwn] at this

/-- C1, amended: let the mapping send distinct logical fields to distinct physical names
and the field `id` to the collection's identifier field `_id`, and let every field of the
link `L` be mapping-known.  If `insert(L)` returns the identifier `i`, then `fetch(i)`
returns exactly one Link; that Link holds `id = i` and, for every other field, what `L`
holds.  It is the same record as `L` when `L` carries its `id`. -/
theorem insert_fetch_round_trip (g : Graph) (gen : Nat → String) (s s' : Store) (L : Obj)
    (i : Val) (insertCallback : Option Unit) (options : Option SelectOptions)
    (callback : Bool)
    (hinj : ∀ a ∈ g.fields.map Prod.fst, ∀ b ∈ g.fields.map Prod.fst,
      g.phys a = g.phys b → a = b)
    (hid : g.field "id" = some "_id")
    (hL : ∀ f ∈ Obj.keys L, g.mapped f = true)
    (hins : g.insert (Store.collection gen) s L insertCallback = .ok (i, s')) :
    ∃ link, (g.fetch (Store.collection gen) s' i options callback).links = [link] ∧
      (∀ k, Obj.getOwn link k = if k = "id" then some i else Obj.getOwn L k) ∧
      (Obj.hasOwnProperty L "id" = true → Obj.Same link L) := by
  have hidmem : "id" ∈ g.fields.map Prod.fst :=
    mem_fields_of_ownField (ownField_of_field hid (by decide))
  have hidphys : g.phys "id" = "_id" := by simp [phys, hid]
  -- the submitted document
  have hD1 : ∀ f ∈ Obj.keys L, Obj.getOwn (g.insertDocument L) (g.phys f) = Obj.getOwn L f := by
    intro f hf
    refine getOwn_insertDocument g L f hf (known_of_mapped (hL f hf)) ?_
    intro f' hf' _ hp
    exact hinj f' (mem_fields_of_mapped (hL f' hf')) f (mem_fields_of_mapped (hL f hf)) hp
  have hD2 : ∀ p, Obj.hasOwnProperty (g.insertDocument L) p = true →
      ∃ f' ∈ Obj.keys L, g.known f' = true ∧ g.phys f' = p :=
    insertDocument_fields g L
  -- the stored document
  obtain ⟨i0, d', hi, hfree, hdocs, hdid, hdrest, hdsame⟩ :=
    Store.insert_ok (show Store.insert gen s (g.insertDocument L) = .ok (i, s') from hins)
  subst hi
  have hfind : (Store.collection gen).find s' (g.query (Val.str i0)) = [d'] := by
    have hq : g.query (Val.str i0) = Val.obj [("_id", Val.str i0)] := by
      simp [query, Val.typeof, hidphys]
    rw [hq]
    exact Store.find_id_after_insert hfree hdocs hdid
  have hlinks : (g.fetch (Store.collection gen) s' (Val.str i0) options callback).links
      = [g._generateLink d'] := by
    rw [fetch_links_eq_map, hfind]
    rfl
  have hfield : ∀ k, Obj.getOwn (g._generateLink d') k
      = if k = "id" then some (Val.str i0) else Obj.getOwn L k := by
    intro k
    rw [getOwn_generateLink]
    by_cases hk : k = "id"
    · subst hk
      simp [hidmem, hidphys, Obj.hasOwnProperty, hdid]
    · rw [if_neg hk]
      by_cases hmem : k ∈ g.fields.map Prod.fst
      · have hne : "_id" ≠ g.phys k := by
          intro h
          exact hk (hinj k hmem "id" hidmem (by rw [hidphys, h]))
        by_cases hkL : k ∈ Obj.keys L
        · have hval : Obj.getOwn d' (g.phys k) = Obj.getOwn L k := by
            rw [hdrest _ hne, hD1 k hkL]
          have hsome := (Obj.getOwn_isSome_iff_mem_keys L k).2 hkL
          simp [hmem, Obj.hasOwnProperty, hval, hsome]
        · rw [Obj.getOwn_eq_none_of_not_mem hkL]
          split_ifs with hc
          · exfalso
            have hhas : Obj.hasOwnProperty (g.insertDocument L) (g.phys k) = true := by
              have := hc.2
              unfold Obj.hasOwnProperty at this ⊢
              rwa [hdrest _ hne] at this
            obtain ⟨f', hf', _, hpf'⟩ := hD2 _ hhas
            have : f' = k := hinj f' (mem_fields_of_mapped (hL f' hf')) k hmem hpf'
            exact hkL (this ▸ hf')
          · rfl
      · have hkL : k ∉ Obj.keys L := fun h => hmem (mem_fields_of_mapped (hL k h))
        rw [Obj.getOwn_eq_none_of_not_mem hkL]
        simp [hmem]
  refine ⟨g._generateLink d', hlinks, hfield, ?_⟩
  intro hhas k
  rw [hfield k]
  by_cases hk : k = "id"
  · subst hk
    have hmemL : "id" ∈ Obj.keys L := (Obj.getOwn_isSome_iff_mem_keys L "id").1 hhas
    have h1 := hD1 "id" hmemL
    rw [hidphys] at h1
    rw [if_pos rfl]
    cases hv : Obj.getOwn L "id" with
    | none => simp [Obj.hasOwnProperty, hv] at hhas
    | some v =>
      rw [hv] at h1
      rw [hdsame v h1]
  · rw [if_neg hk]

/-- The round trip of the specification's example: `insert({source: 'a', target: 'b'})`
into an empty collection, then `fetch` by the returned identifier. -/
theorem insert_fetch_round_trip_witness :
    ∃ link, (sampleGraph.fetch (Store.collection sampleGen)
        { docs := [[("from", Val.str "a"), ("to", Val.str "b"), ("_id", Val.str "n")]],
          seed := 1 }
        (Val.str "n") none false).links = [link] ∧
      (∀ k, Obj.getOwn link k
        = if k = "id" then some (Val.str "n")
          else Obj.getOwn [("source", Val.str "a"), ("target", Val.str "b")] k) ∧
      (Obj.hasOwnProperty [("source", Val.str "a"), ("target", Val.str "b")] "id" = true →
        Obj.Same link [("source", Val.str "a"), ("target", Val.str "b")]) :=
  insert_fetch_round_trip sampleGraph sampleGen { docs := [], seed := 0 }
    { docs := [[("from", Val.str "a"), ("to", Val.str "b"), ("_id", Val.str "n")]], seed := 1 }
    [("source", Val.str "a"), ("target", Val.str "b")] (Val.str "n") none none false
    (by decide) (by decide) (by decide) rfl

/-- With a link that carries no `id` and a generator whose next identifier is non-empty
and not in use, `insert` succeeds and returns that identifier. -/
theorem insert_ok_of_fresh (g : Graph) (gen : Nat → String) (s : Store) (L : Obj)
    (callback : Option Unit)
    (hnoid : Obj.getOwn (g.insertDocument L) "_id" = none)
    (hgen : gen s.seed ≠ "") (hfree : s.hasId (gen s.seed) = false) :
    g.insert (Store.collection gen) s L callback
      = .ok (Val.str (gen s.seed),
          { docs := s.docs ++ [Obj.set (g.insertDocument L) "_id" (Val.str (gen s.seed))],
            seed := s.seed + 1 }) := by
  show Store.insert gen s (g.insertDocument L) = _
  simp [Store.insert, hnoid, hgen, hfree]

/-! ## C2: scalar selectors -/

/-- C2, as stated, fails: with a mapping that has no entry for `id`, `query('x')` is the
filter `{undefined: 'x'}` while `query({id: 'x'})` is the empty filter. -/
theorem query_scalar_ne_query_id_object :
    noIdGraph.query (Val.str "x") = Val.obj [("undefined", Val.str "x")] ∧
    noIdGraph.query (Val.obj [("id", Val.str "x")]) = Val.obj [] ∧
    noIdGraph.query (Val.str "x") ≠ noIdGraph.query (Val.obj [("id", Val.str "x")]) := by
  decide

/-- C2, amended: when the mapping has a non-empty physical name for `id`, `query(id)` and
`query({id: id})` are the same filter for every string or number `id`. -/
theorem query_scalar_eq_query_id_object (g : Graph) (id : Val)
    (hid : id.typeof = "string" ∨ id.typeof = "number")
    (hknown : g.known "id" = true) :
    g.query id = g.query (Val.obj [("id", id)]) := by
  cases id with
  | num n =>
    simp [query, Val.typeof, Val.forIn, Val.get, Obj.keys, Obj.get, Obj.getOwn, hknown,
      Obj.set]
  | str t =>
    simp [query, Val.typeof, Val.forIn, Val.get, Obj.keys, Obj.get, Obj.getOwn, hknown,
      Obj.set]
  | undefined => simp [Val.typeof] at hid
  | null => simp [Val.typeof] at hid
  | bool b => simp [Val.typeof] at hid
  | obj ps => simp [Val.typeof] at hid

/-- The amended C2 at the sample mapping and the identifier `7`. -/
theorem query_scalar_eq_query_id_object_witness :
    sampleGraph.query (Val.num 7) = sampleGraph.query (Val.obj [("id", Val.num 7)]) :=
  query_scalar_eq_query_id_object sampleGraph (Val.num 7) (Or.inr (by decide)) (by decide)

/-! ## C3: object selectors -/

/-- C3, as stated, fails: when two fields of the selector are stored under one physical
name, the later field overwrites the clause of the earlier one.  With `source` and `target`
both mapped to `node`, `query({source: undefined, target: 'b'})` is `{node: 'b'}`: the
clause for `source` is an equality, not `{$exists: false}`. -/
theorem query_undefined_field_clause_overwritten :
    Obj.getOwn [("source", Val.undefined), ("target", Val.str "b")] "source"
      = some Val.undefined ∧
    collidingGraph.known "source" = true ∧
    collidingGraph.query (Val.obj [("source", Val.undefined), ("target", Val.str "b")])
      = Val.obj [("node", Val.str "b")] ∧
    Obj.getOwn [("node", Val.str "b")] (collidingGraph.phys "source")
      ≠ some (Val.obj [("$exists", Val.bool false)]) := by
  decide

/-- C3, amended: for a selector object `S` and a mapping-known field `F` present on `S`
whose physical name no other mapping-known field of `S` shares, `query(S)` is a filter
object whose clause for the physical field of `F` is `{$exists: false}` when `S[F]` is
explicitly `undefined`, and is the value `v` itself when `S[F]` is a defined value `v`. -/
theorem query_object_clause (g : Graph) (S : Obj) (F : String)
    (hknown : g.known F = true)
    (hdistinct : ∀ f ∈ Obj.keys S, g.known f = true → g.phys f = g.phys F → f = F) :
    ∃ filter, g.query (Val.obj S) = Val.obj filter ∧
      (Obj.getOwn S F = some Val.undefined →
        Obj.getOwn filter (g.phys F) = some (Val.obj [("$exists", Val.bool false)])) ∧
      (∀ v, Obj.getOwn S F = some v → v ≠ Val.undefined →
        Obj.getOwn filter (g.phys F) = some v) := by
  refine ⟨_, query_obj g S, ?_, ?_⟩
  · intro hF
    have hmem : F ∈ Obj.keys S := (Obj.getOwn_isSome_iff_mem_keys S F).1 (by simp [hF])
    apply Obj.getOwn_foldl_set_eq_some
    · intro f hf hkf hpf
      have := hdistinct f hf hkf hpf
      subst this
      simp [Obj.get, hF]
    · exact Or.inr ⟨F, hmem, hknown, rfl⟩
  · intro v hF hv
    have hmem : F ∈ Obj.keys S := (Obj.getOwn_isSome_iff_mem_keys S F).1 (by simp [hF])
    apply Obj.getOwn_foldl_set_eq_some
    · intro f hf hkf hpf
      have := hdistinct f hf hkf hpf
      subst this
      simp [Obj.get, hF, hv]
    · exact Or.inr ⟨F, hmem, hknown, rfl⟩

/-- The amended C3 at the sample mapping, the selector `{source: undefined, target: 'b'}` and
the field `source`. -/
theorem query_object_clause_witness :
    ∃ filter, sampleGraph.query (Val.obj [("source", Val.undefined), ("target", Val.str "b")])
        = Val.obj filter ∧
      (Obj.getOwn [("source", Val.undefined), ("target", Val.str "b")] "source"
          = some Val.undefined →
        Obj.getOwn filter (sampleGraph.phys "source")
          = some (Val.obj [("$exists", Val.bool false)])) ∧
      (∀ v, Obj.getOwn [("source", Val.undefined), ("target", Val.str "b")] "source" = some v →
        v ≠ Val.undefined → Obj.getOwn filter (sampleGraph.phys "source") = some v) :=
  query_object_clause sampleGraph [("source", Val.undefined), ("target", Val.str "b")] "source"
    (by decide) (by decide)

/-! ## C4: the modifier submitted by update -/

/-- C4, as stated, fails: when two defined fields of the modifier are stored under one
physical name, `$set` holds the value of the later field only.  With `source` and `target`
both mapped to `node`, `update(selector, {source: 'a', target: 'b'})` submits
`{$set: {node: 'b'}}`, where `$set` does not hold `node = 'a'` for the field `source`. -/
theorem updateModifier_colliding_fields :
    collidingGraph.mapped "source" = true ∧
    Obj.getOwn [("source", Val.str "a"), ("target", Val.str "b")] "source"
      = some (Val.str "a") ∧
    collidingGraph.updateModifier [("source", Val.str "a"), ("target", Val.str "b")]
      = [("$set", Val.obj [("node", Val.str "b")])] ∧
    Obj.getOwn [("node", Val.str "b")] (collidingGraph.phys "source")
      ≠ some (Val.str "a") := by
  decide

/-- The modifier document of `update`, field by field, in terms of the test
`if (this.fields[m])`: a field `m` of the modifier that passes the test, and whose key
no other such field shares, is written to `$set` with its defined value or to `$unset`
when it is `undefined`; and every field of `$set` (of `$unset`) is the key of a field of
the modifier that passes the test with a defined (an undefined) value. -/
theorem updateModifier_set_unset (g : Graph) (modifier : Obj) (m : String)
    (hm : m ∈ Obj.keys modifier) (hknown : g.known m = true)
    (hdistinct : ∀ m' ∈ Obj.keys modifier, g.known m' = true → g.phys m' = g.phys m → m' = m) :
    (Obj.get modifier m ≠ Val.undefined →
      ∃ setDoc, Obj.getOwn (g.updateModifier modifier) "$set" = some (Val.obj setDoc) ∧
        Obj.getOwn setDoc (g.phys m) = some (Obj.get modifier m)) ∧
    (Obj.get modifier m = Val.undefined →
      ∃ unsetDoc, Obj.getOwn (g.updateModifier modifier) "$unset" = some (Val.obj unsetDoc) ∧
        Obj.getOwn unsetDoc (g.phys m) = some (Val.str "")) ∧
    (∀ setDoc p, Obj.getOwn (g.updateModifier modifier) "$set" = some (Val.obj setDoc) →
      Obj.hasOwnProperty setDoc p = true →
      ∃ m' ∈ Obj.keys modifier,
        g.known m' = true ∧ Obj.get modifier m' ≠ Val.undefined ∧ g.phys m' = p) ∧
    (∀ unsetDoc p, Obj.getOwn (g.updateModifier modifier) "$unset" = some (Val.obj unsetDoc) →
      Obj.hasOwnProperty unsetDoc p = true →
      ∃ m' ∈ Obj.keys modifier,
        g.known m' = true ∧ Obj.get modifier m' = Val.undefined ∧ g.phys m' = p) ∧
    (∀ (σ κ : Type) (c : Collection σ κ) (s : σ) (selector : Val) (callback : Option κ),
      g.update c s selector modifier callback
        = match c.update s (g.query selector) (g.updateModifier modifier) callback with
          | .ok r => .ok (Val.undefined, r.2)
          | .error e => .error e) := by
  obtain ⟨hu, hs, _⟩ := modifierParts_updateModifier g modifier
  refine ⟨?_, ?_, ?_, ?_, ?_⟩
  · intro hdef
    have hval : Obj.getOwn (g.setPart modifier (Obj.keys modifier) []) (g.phys m)
        = some (Obj.get modifier m) := by
      unfold setPart
      apply Obj.getOwn_foldl_set_eq_some
        (fun m => g.known m && !decide ((Obj.get modifier m).typeof = "undefined"))
        g.phys (fun m => Obj.get modifier m)
      · intro m' hm' hP hp
        simp only [Bool.and_eq_true] at hP
        rw [hdistinct m' hm' hP.1 hp]
      · refine Or.inr ⟨m, hm, ?_, rfl⟩
        simp [hknown, typeof_eq_undefined_iff, hdef]
    exact ⟨_, hs.trans (optObj_of_getOwn hval), hval⟩
  · intro hundef
    have hval : Obj.getOwn (g.unsetPart modifier (Obj.keys modifier) []) (g.phys m)
        = some (Val.str "") := by
      unfold unsetPart
      apply Obj.getOwn_foldl_set_eq_some
        (fun m => g.known m && decide ((Obj.get modifier m).typeof = "undefined"))
        g.phys (fun _ => Val.str "")
      · intro _ _ _ _
        rfl
      · refine Or.inr ⟨m, hm, ?_, rfl⟩
        simp [hknown, typeof_eq_undefined_iff, hundef]
    exact ⟨_, hu.trans (optObj_of_getOwn hval), hval⟩
  · intro setDoc p hget hp
    have hpart := optObj_eq_some (hs.symm.trans hget)
    subst hpart
    unfold setPart Obj.hasOwnProperty at hp
    rcases Obj.getOwn_foldl_set_isSome _ _ _ p _ _ hp with h | ⟨m', hm', hP, hK⟩
    · simp [Obj.getOwn] at h
    · simp only [Bool.and_eq_true, Bool.not_eq_true', decide_eq_false_iff_not,
        typeof_eq_undefined_iff] at hP
      exact ⟨m', hm', hP.1, hP.2, hK⟩
  · intro unsetDoc p hget hp
    have hpart := optObj_eq_some (hu.symm.trans hget)
    subst hpart
    unfold unsetPart Obj.hasOwnProperty at hp
    rcases Obj.getOwn_foldl_set_isSome _ _ _ p _ _ hp with h | ⟨m', hm', hP, hK⟩
    · simp [Obj.getOwn] at h
    · simp only [Bool.and_eq_true, decide_eq_true_eq, typeof_eq_undefined_iff] at hP
      exact ⟨m', hm', hP.1, hP.2, hK⟩
  · intro σ κ c s selector callback
    rfl

/-- C4, amended: take a modifier whose fields outside the mapping do not bear the name of
a member of `Object.prototype`, and let `m` be a mapping-known field present on it whose
physical name no other mapping-known field of the modifier shares.  If `modifier[m]` is a
defined value, the submitted modifier has a `$set` document holding physical-field = that
value; if it is explicitly `undefined`, the submitted modifier has a `$unset` document
holding the physical field.  Every field of `$set` (of `$unset`) is the physical name of a
mapping-known field present on the modifier with a defined (an undefined) value, so fields
absent from the modifier or from the mapping add nothing.  This document is what `update`
passes to the collection, with the filter `query(selector)`. -/
theorem update_submits_set_unset_document (g : Graph) (modifier : Obj) (m : String)
    (hm : m ∈ Obj.keys modifier) (hmapped : g.mapped m = true)
    (hplain : ∀ m' ∈ Obj.keys modifier, g.ownField m' = none → inheritedKey m' = none)
    (hdistinct : ∀ m' ∈ Obj.keys modifier, g.mapped m' = true → g.phys m' = g.phys m → m' = m) :
    (Obj.get modifier m ≠ Val.undefined →
      ∃ setDoc, Obj.getOwn (g.updateModifier modifier) "$set" = some (Val.obj setDoc) ∧
        Obj.getOwn setDoc (g.phys m) = some (Obj.get modifier m)) ∧
    (Obj.get modifier m = Val.undefined →
      ∃ unsetDoc, Obj.getOwn (g.updateModifier modifier) "$unset" = some (Val.obj unsetDoc) ∧
        Obj.getOwn unsetDoc (g.phys m) = some (Val.str "")) ∧
    (∀ setDoc p, Obj.getOwn (g.updateModifier modifier) "$set" = some (Val.obj setDoc) →
      Obj.hasOwnProperty setDoc p = true →
      ∃ m' ∈ Obj.keys modifier,
        g.mapped m' = true ∧ Obj.get modifier m' ≠ Val.undefined ∧ g.phys m' = p) ∧
    (∀ unsetDoc p, Obj.getOwn (g.updateModifier modifier) "$unset" = some (Val.obj unsetDoc) →
      Obj.hasOwnProperty unsetDoc p = true →
      ∃ m' ∈ Obj.keys modifier,
        g.mapped m' = true ∧ Obj.get modifier m' = Val.undefined ∧ g.phys m' = p) ∧
    (∀ (σ κ : Type) (c : Collection σ κ) (s : σ) (selector : Val) (callback : Option κ),
      g.update c s selector modifier callback
        = match c.update s (g.query selector) (g.updateModifier modifier) callback with
          | .ok r => .ok (Val.undefined, r.2)
          | .error e => .error e) := by
  obtain ⟨h1, h2, h3, h4, h5⟩ := updateModifier_set_unset g modifier m hm
    (known_of_mapped hmapped)
    (fun m' hm' hk hp => hdistinct m' hm' (mapped_of_known_of_plain hplain hm' hk) hp)
  refine ⟨h1, h2, ?_, ?_, h5⟩
  · intro setDoc p hget hp
    obtain ⟨m', hm', hk, hd, hph⟩ := h3 setDoc p hget hp
    exact ⟨m', hm', mapped_of_known_of_plain hplain hm' hk, hd, hph⟩
  · intro unsetDoc p hget hp
    obtain ⟨m', hm', hk, hd, hph⟩ := h4 unsetDoc p hget hp
    exact ⟨m', hm', mapped_of_known_of_plain hplain hm' hk, hd, hph⟩

/-- The amended C4 at the sample mapping, the modifier
`{source: undefined, target: 'b', weight: 3}` and the field `target`, with the document
this modifier yields. -/
theorem update_submits_set_unset_document_witness :
    (∃ setDoc, Obj.getOwn (sampleGraph.updateModifier
          [("source", Val.undefined), ("target", Val.str "b"), ("weight", Val.num 3)]) "$set"
          = some (Val.obj setDoc) ∧
        Obj.getOwn setDoc (sampleGraph.phys "target")
          = some (Obj.get
              [("source", Val.undefined), ("target", Val.str "b"), ("weight", Val.num 3)]
              "target")) ∧
    sampleGraph.updateModifier
        [("source", Val.undefined), ("target", Val.str "b"), ("weight", Val.num 3)]
      = [("$unset", Val.obj [("from", Val.str "")]), ("$set", Val.obj [("to", Val.str "b")])] :=
  ⟨(update_submits_set_unset_document sampleGraph
      [("source", Val.undefined), ("target", Val.str "b"), ("weight", Val.num 3)] "target"
      (by decide) (by decide) (by decide) (by decide)).1 (by decide), by decide⟩

/-! ## C5: the value update returns -/

/-- C5: `update` has no `return`: it yields `undefined` where its documentation
(`@return {number} [count]`) and the claim have the count of the collection.  On a store
holding `{_id: 'x', from: 'a', to: 'b'}`, the collection's `update` for
`update('x', {source: 'c'})` returns the count `1` and the method returns `undefined`. -/
theorem update_returns_undefined_not_count :
    (Store.collection sampleGen).update sampleStore (sampleGraph.query (Val.str "x"))
        (sampleGraph.updateModifier [("source", Val.str "c")]) none
      = .ok (Val.num 1,
          { docs := [[("_id", Val.str "x"), ("from", Val.str "c"), ("to", Val.str "b")]],
            seed := 0 }) ∧
    sampleGraph.update (Store.collection sampleGen) sampleStore (Val.str "x")
        [("source", Val.str "c")] none
      = .ok (Val.undefined,
          { docs := [[("_id", Val.str "x"), ("from", Val.str "c"), ("to", Val.str "b")]],
            seed := 0 }) := by
  constructor <;> rfl

/-! ## C6: the document submitted by insert -/

/-- C6, as stated, fails: when two fields of the link are stored under one physical name,
the document holds the value of the later field only.  With `source` and `target` both
mapped to `node`, `insert({source: 'a', target: 'b'})` submits `{node: 'b'}`, whose field
for `source` does not hold `link.source`. -/
theorem insertDocument_colliding_fields :
    collidingGraph.mapped "source" = true ∧
    collidingGraph.insertDocument [("source", Val.str "a"), ("target", Val.str "b")]
      = [("node", Val.str "b")] ∧
    Obj.getOwn
      (collidingGraph.insertDocument [("source", Val.str "a"), ("target", Val.str "b")])
      (collidingGraph.phys "source")
      ≠ Obj.getOwn [("source", Val.str "a"), ("target", Val.str "b")] "source" := by
  decide

/-- The link `{source: 'a', constructor: 'k'}`: `constructor` is not in the mapping, but
`this.fields['constructor']` is the inherited function `Object`, which is truthy, so
the value is stored under the text of that function. -/
theorem insertDocument_inherited_name :
    sampleGraph.mapped "constructor" = false ∧
    sampleGraph.insertDocument [("source", Val.str "a"), ("constructor", Val.str "k")]
      = [("from", Val.str "a"),
         ("function Object() \x7b [native code] \x7d", Val.str "k")] := by
  decide

/-- C6, amended: take a link whose fields outside the mapping do not bear the name of a
member of `Object.prototype`.  The document that `insert(link)` submits holds, for every
mapping-known field `f` of `link` whose physical name no other mapping-known field of
`link` shares, the physical field `fields[f]` with value `link[f]`; every field of the
document is the physical name of a mapping-known field of `link` (fields absent from the
mapping leave no trace and raise no error); and `insert` returns what the collection's
`insert` returned for that document. -/
theorem insert_submits_projected_document (g : Graph) (link : Obj) (f : String)
    (hf : f ∈ Obj.keys link) (hmapped : g.mapped f = true)
    (hplain : ∀ f' ∈ Obj.keys link, g.ownField f' = none → inheritedKey f' = none)
    (hdistinct : ∀ f' ∈ Obj.keys link, g.mapped f' = true → g.phys f' = g.phys f → f' = f) :
    Obj.getOwn (g.insertDocument link) (g.phys f) = Obj.getOwn link f ∧
    (∀ p, Obj.hasOwnProperty (g.insertDocument link) p = true →
      ∃ f' ∈ Obj.keys link, g.mapped f' = true ∧ g.phys f' = p) ∧
    (∀ (σ κ : Type) (c : Collection σ κ) (s : σ) (callback : Option κ),
      g.insert c s link callback = c.insert s (g.insertDocument link) callback) := by
  refine ⟨?_, ?_, fun _ _ _ _ _ => rfl⟩
  · exact getOwn_insertDocument g link f hf (known_of_mapped hmapped)
      (fun f' hf' hk hp => hdistinct f' hf' (mapped_of_known_of_plain hplain hf' hk) hp)
  · intro p hp
    obtain ⟨f', hf', hk, hph⟩ := insertDocument_fields g link p hp
    exact ⟨f', hf', mapped_of_known_of_plain hplain hf' hk, hph⟩

/-- The amended C6 at the sample mapping, the link `{source: 'a', target: 'b', weight: 3}`
and the field `source`. -/
theorem insert_submits_projected_document_witness :
    Obj.getOwn (sampleGraph.insertDocument
        [("source", Val.str "a"), ("target", Val.str "b"), ("weight", Val.num 3)])
      (sampleGraph.phys "source")
      = Obj.getOwn [("source", Val.str "a"), ("target", Val.str "b"), ("weight", Val.num 3)]
        "source" ∧
    (∀ p, Obj.hasOwnProperty (sampleGraph.insertDocument
        [("source", Val.str "a"), ("target", Val.str "b"), ("weight", Val.num 3)]) p = true →
      ∃ f' ∈ Obj.keys [("source", Val.str "a"), ("target", Val.str "b"), ("weight", Val.num 3)],
        sampleGraph.mapped f' = true ∧ sampleGraph.phys f' = p) ∧
    (∀ (σ κ : Type) (c : Collection σ κ) (s : σ) (callback : Option κ),
      sampleGraph.insert c s
        [("source", Val.str "a"), ("target", Val.str "b"), ("weight", Val.num 3)] callback
      = c.insert s (sampleGraph.insertDocument
        [("source", Val.str "a"), ("target", Val.str "b"), ("weight", Val.num 3)]) callback) :=
  insert_submits_projected_document sampleGraph
    [("source", Val.str "a"), ("target", Val.str "b"), ("weight", Val.num 3)] "source"
    (by decide) (by decide) (by decide) (by decide)

/-- The example of the specification: with the mapping `{id: '_id', source: 'from',
target: 'to'}`, the link `{source: 'a', target: 'b'}` is stored as `{from: 'a', to: 'b'}`. -/
theorem insertDocument_example :
    sampleGraph.insertDocument [("source", Val.str "a"), ("target", Val.str "b")]
      = [("from", Val.str "a"), ("to", Val.str "b")] := by
  decide

/-! ## C7: the sort returned by options -/

/-- C7: the sort that `options` returns is the caller's descriptor with the physical keys
added, so it keeps the logical keys and the unmapped keys.  With `source` mapped to `from`
and `weight` unmapped, the sort `{source: true, weight: 1}` comes back as
`{source: true, weight: 1, from: 1}`, where the claim has `{from: 1}`. -/
theorem options_sort_keeps_logical_and_unmapped_keys :
    sampleGraph.known "weight" = false ∧
    sampleGraph.options (some
        { sort := some [("source", Val.bool true), ("weight", Val.num 1)],
          skip := Val.undefined, limit := Val.undefined })
      = [("sort", Val.obj [("source", Val.bool true), ("weight", Val.num 1),
          ("from", Val.num 1)])] := by
  decide

/-! ## C8: skip and limit -/

/-- C8: `options` copies `skip` exactly when `options.skip` is a number and `limit` exactly
when `options.limit` is a number; without an options argument the result is the empty
object. -/
theorem options_skip_limit (g : Graph) (o : SelectOptions) :
    Obj.getOwn (g.options (some o)) "skip"
      = (if o.skip.typeof = "number" then some o.skip else none) ∧
    Obj.getOwn (g.options (some o)) "limit"
      = (if o.limit.typeof = "number" then some o.limit else none) ∧
    g.options none = [] := by
  have hsl : ("skip" : String) ≠ "limit" := by decide
  have hls : ("limit" : String) ≠ "skip" := by decide
  have hss : ("sort" : String) ≠ "skip" := by decide
  have hsol : ("sort" : String) ≠ "limit" := by decide
  obtain ⟨sort, skip, limit⟩ := o
  refine ⟨?_, ?_, rfl⟩
  · unfold options
    cases sort <;> by_cases h1 : skip.typeof = "number" <;>
      by_cases h2 : limit.typeof = "number" <;>
      simp [h1, h2, Obj.getOwn_set, hsl, hls, hss, hsol, Obj.getOwn]
  · unfold options
    cases sort <;> by_cases h1 : skip.typeof = "number" <;>
      by_cases h2 : limit.typeof = "number" <;>
      simp [h1, h2, Obj.getOwn_set, hsl, hls, hss, hsol, Obj.getOwn]

/-! ## C9: fetch -/

/-- C9: `fetch` returns the projections of the cursor's documents, one Link per document,
in cursor order and of the same length; the Link of a document has the logical field `k`
exactly when `k` is a logical field of the mapping whose physical field the document has,
and then holds the document's value of that physical field, so that document fields no
mapping entry names never reach the Link. -/
theorem fetch_projects_cursor_documents {σ κ : Type} (g : Graph) (c : Collection σ κ)
    (s : σ) (selector : Val) (options : Option SelectOptions) (callback : Bool) :
    (g.fetch c s selector options callback).links
      = (c.find s (g.query selector)).map g._generateLink ∧
    (g.fetch c s selector options callback).links.length
      = (c.find s (g.query selector)).length ∧
    ∀ (document : Obj) (k : String),
      Obj.getOwn (g._generateLink document) k
        = if k ∈ g.fields.map Prod.fst ∧ Obj.hasOwnProperty document (g.phys k) = true then
            Obj.getOwn document (g.phys k)
          else none := by
  refine ⟨fetch_links_eq_map g c s selector options callback, ?_, getOwn_generateLink g⟩
  rw [fetch_links_eq_map]
  simp

/-! ## C10: each -/

/-- C10: the function that `each` hands to the cursor reads `this._generateLink`, and
`this` is not the graph inside that function (the method `on` captures `graph = this` for
this reason): the first document throws a `TypeError` and the callback is never invoked.
On a store holding `{_id: 'x', from: 'a', to: 'b'}`, `fetch('x')` returns one Link while
`each('x', options, cb)` calls `cb` zero times and throws. -/
theorem each_throws_before_first_callback :
    (sampleGraph.fetch (Store.collection sampleGen) sampleStore (Val.str "x") none false).links
      = [[("id", Val.str "x"), ("source", Val.str "a"), ("target", Val.str "b")]] ∧
    (sampleGraph.each (Store.collection sampleGen) sampleStore (Val.str "x") none).calls
      = [] ∧
    (sampleGraph.each (Store.collection sampleGen) sampleStore (Val.str "x") none).error
      = some JsError.typeError := by
  decide

/-! ## C11: map -/

/-- Whenever the selector matches a document, `map` throws and returns no sequence. -/
theorem map_error_of_find_ne_nil {σ κ β : Type} (g : Graph) (c : Collection σ κ) (s : σ)
    (selector : Val) (options : Option SelectOptions) (callback : Obj → β)
    (h : c.find s (g.query selector) ≠ []) :
    g.map c s selector options callback = .error JsError.typeError := by
  unfold map _find
  cases hd : c.find s (g.query selector) with
  | nil => exact absurd hd h
  | cons d ds => simp [Cursor.map, mapFunction]

/-- C11: the function that `map` hands to the cursor reads `this._generateLink` with `this`
not bound to the graph, as in `each` (C10): the first document throws a `TypeError` and
`map` returns no sequence.  On a store holding `{_id: 'x', from: 'a', to: 'b'}`,
`fetch('x')` returns one Link, so the claim has a one-element result for
`map('x', options, cb)`, which throws instead; here `cb` reads the field `source`. -/
theorem map_throws_before_first_callback :
    (sampleGraph.fetch (Store.collection sampleGen) sampleStore (Val.str "x") none false).links
      = [[("id", Val.str "x"), ("source", Val.str "a"), ("target", Val.str "b")]] ∧
    sampleGraph.map (Store.collection sampleGen) sampleStore (Val.str "x") none
        (fun link => Obj.get link "source")
      = .error JsError.typeError ∧
    sampleGraph.map (Store.collection sampleGen) sampleStore (Val.str "x") none
        (fun link => Obj.get link "source")
      ≠ .ok ((sampleGraph.fetch (Store.collection sampleGen) sampleStore (Val.str "x")
          none false).links.map (fun link => Obj.get link "source")) := by
  refine ⟨by decide, rfl, ?_⟩
  intro h
  cases h

/-! ## C12: link and unlink as composite subscriptions -/

/-- C12: `on('link', cb)` leaves the registry that `on('insert', cb)` followed by
`on('update', cb)` leaves (in either order), and `on('unlink', cb)` the registry that
`on('update', cb)` followed by `on('remove', cb)` leaves (in either order); hence every
sequence of mutations produces the same callback invocations, in the same order and
without de-duplication. -/
theorem on_link_unlink_composite {κ : Type} (g : Graph) (callback : κ) (hooks : Hooks κ) :
    g.on "link" callback hooks = g.on "update" callback (g.on "insert" callback hooks) ∧
    g.on "link" callback hooks = g.on "insert" callback (g.on "update" callback hooks) ∧
    g.on "unlink" callback hooks = g.on "remove" callback (g.on "update" callback hooks) ∧
    g.on "unlink" callback hooks = g.on "update" callback (g.on "remove" callback hooks) ∧
    (∀ ns : List Notification,
      (g.on "link" callback hooks).fireAll ns
        = (g.on "update" callback (g.on "insert" callback hooks)).fireAll ns) ∧
    (∀ ns : List Notification,
      (g.on "unlink" callback hooks).fireAll ns
        = (g.on "remove" callback (g.on "update" callback hooks)).fireAll ns) := by
  have h1 : g.on "link" callback hooks
      = g.on "update" callback (g.on "insert" callback hooks) := rfl
  have h2 : g.on "unlink" callback hooks
      = g.on "remove" callback (g.on "update" callback hooks) := rfl
  refine ⟨h1, rfl, h2, rfl, ?_, ?_⟩
  · intro ns
    rw [h1]
  · intro ns
    rw [h2]

/-! ## C13: the arguments of unlink -/

/-- C13, as stated, fails: an update notification reaches an `unlink` subscriber in the
shape of an `update` event: `newLink` is the projection of the updated document, not
`undefined`.  Here the document `{_id: 'x', from: 'a'}` is updated to `{_id: 'x', from: 'c'}`
by the user `u`. -/
theorem unlink_update_passes_newLink :
    ((sampleGraph.on "unlink" "cb" Hooks.empty).fire
        (Notification.updated (Val.str "u")
          [("_id", Val.str "x"), ("from", Val.str "a")]
          [("_id", Val.str "x"), ("from", Val.str "c")])).map (fun i => i.newLink)
      = [Val.obj [("id", Val.str "x"), ("source", Val.str "c")]] ∧
    Val.obj [("id", Val.str "x"), ("source", Val.str "c")] ≠ Val.undefined := by
  decide

/-- C13, amended: every callback invocation produced by an `unlink` subscription has as
`oldLink` the projection of the superseded or removed document and a context carrying the
acting `userId`; `newLink` is `undefined` when the notification came from a removal, and is
the projection of the updated document when it came from an update (the shape of an
`update` event).  An insert produces no invocation. -/
theorem unlink_invocations {κ : Type} (g : Graph) (callback : κ) (hooks : Hooks κ)
    (userId : Val) (previous doc : Obj) :
    (g.on "unlink" callback hooks).fire (Notification.removed userId doc)
      = hooks.fire (Notification.removed userId doc) ++
        [{ callback := callback, oldLink := Val.obj (g._generateLink doc),
           newLink := Val.undefined, context := Val.obj [("userId", userId)] }] ∧
    (g.on "unlink" callback hooks).fire (Notification.updated userId previous doc)
      = hooks.fire (Notification.updated userId previous doc) ++
        [{ callback := callback, oldLink := Val.obj (g._generateLink previous),
           newLink := Val.obj (g._generateLink doc),
           context := Val.obj [("userId", userId)] }] ∧
    (g.on "unlink" callback hooks).fire (Notification.inserted userId doc)
      = hooks.fire (Notification.inserted userId doc) := by
  refine ⟨?_, ?_, ?_⟩ <;>
    simp [Graph.on, Hooks.fire, Hooks.registerUpdate, Hooks.registerRemove, List.flatMap_append]

/-! ## C14: the arguments of insert, update and remove -/

/-- C14: a subscription to `insert`, `update` or `remove` adds, to the invocations of the
hooks already registered, one call of the callback per notification of its kind: for an
insert `(undefined, projection of the inserted document, {userId})`, for an update
`(projection of the document before the mutation, projection of the updated document,
{userId})`, for a removal `(projection of the removed document, undefined, {userId})`. -/
theorem on_primitive_invocations {κ : Type} (g : Graph) (callback : κ) (hooks : Hooks κ)
    (userId : Val) (previous doc : Obj) :
    (g.on "insert" callback hooks).fire (Notification.inserted userId doc)
      = hooks.fire (Notification.inserted userId doc) ++
        [{ callback := callback, oldLink := Val.undefined,
           newLink := Val.obj (g._generateLink doc),
           context := Val.obj [("userId", userId)] }] ∧
    (g.on "update" callback hooks).fire (Notification.updated userId previous doc)
      = hooks.fire (Notification.updated userId previous doc) ++
        [{ callback := callback, oldLink := Val.obj (g._generateLink previous),
           newLink := Val.obj (g._generateLink doc),
           context := Val.obj [("userId", userId)] }] ∧
    (g.on "remove" callback hooks).fire (Notification.removed userId doc)
      = hooks.fire (Notification.removed userId doc) ++
        [{ callback := callback, oldLink := Val.obj (g._generateLink doc),
           newLink := Val.undefined, context := Val.obj [("userId", userId)] }] := by
  refine ⟨?_, ?_, ?_⟩ <;>
    simp [Graph.on, Hooks.fire, Hooks.registerInsert, Hooks.registerUpdate, Hooks.registerRemove,
      List.flatMap_append]

/-! ## C15: selectors that are neither scalars nor objects -/

/-- C15: for a selector whose type is none of `string`, `number` and `object`, `query`
returns `undefined` (the function is total: no error is raised), which is not a filter
with clauses. -/
theorem query_other_type_undefined (g : Graph) (selector : Val)
    (hstring : selector.typeof ≠ "string") (hnumber : selector.typeof ≠ "number")
    (hobject : selector.typeof ≠ "object") :
    g.query selector = Val.undefined ∧ ∀ clauses, g.query selector ≠ Val.obj clauses := by
  have h : g.query selector = Val.undefined := by
    simp [query, hstring, hnumber, hobject]
  refine ⟨h, ?_⟩
  intro clauses hc
  rw [h] at hc
  cases hc

/-- C15 at the selector `true`. -/
theorem query_other_type_undefined_witness :
    sampleGraph.query (Val.bool true) = Val.undefined ∧
    ∀ clauses, sampleGraph.query (Val.bool true) ≠ Val.obj clauses :=
  query_other_type_undefined sampleGraph (Val.bool true) (by decide) (by decide) (by decide)

/-! ## C16: the sort descriptor is changed in place -/

/-- C16, as stated, fails: a key of the descriptor that is also the physical name of a
visited mapped key does not keep its value.  With `source` stored under its own name, the
caller's descriptor `{source: true}` is `{source: 1}` after the call. -/
theorem options_sort_overwrites_own_key :
    identityGraph.mapped "source" = true ∧
    Obj.getOwn [("source", Val.bool true)] "source" = some (Val.bool true) ∧
    (identityGraph.optionsRun (some
        { sort := some [("source", Val.bool true)], skip := Val.undefined,
          limit := Val.undefined })).2.map (fun o => o.sort)
      = some (some [("source", Val.num 1)]) ∧
    Obj.getOwn [("source", Val.num 1)] "source"
      ≠ Obj.getOwn [("source", Val.bool true)] "source" := by
  decide

/-- The run of `options` returns what `options` returns. -/
theorem optionsRun_fst (g : Graph) (options : Option SelectOptions) :
    (g.optionsRun options).1 = g.options options := by
  cases options with
  | none => rfl
  | some o =>
    obtain ⟨sort, skip, limit⟩ := o
    cases sort <;> rfl

/-- The sort translation in terms of the test `if (this.fields[s])`: the descriptor keeps
its keys; a key that is not the key written for a visited field that passes the test
keeps its value; and the key written for such a field holds `1` or `-1`. -/
theorem sortLoop_keys_values (g : Graph) (sort : Obj) :
    (∀ k ∈ Obj.keys sort, k ∈ Obj.keys (g.sortLoop sort)) ∧
    (∀ k, (∀ s ∈ Obj.keys sort, g.known s = true → g.phys s ≠ k) →
      Obj.getOwn (g.sortLoop sort) k = Obj.getOwn sort k) ∧
    (∀ s ∈ Obj.keys sort, g.known s = true →
      Obj.getOwn (g.sortLoop sort) (g.phys s) = some (Val.num 1) ∨
      Obj.getOwn (g.sortLoop sort) (g.phys s) = some (Val.num (-1))) := by
  refine ⟨?_, ?_, ?_⟩
  · intro k hk
    exact Obj.mem_keys_foldl_setW g.known g.phys
      (fun cur s => if (Obj.get cur s).truthy then Val.num 1 else Val.num (-1)) k _ _ hk
  · intro k hk
    exact Obj.getOwn_foldl_setW_of_forall_ne g.known g.phys
      (fun cur s => if (Obj.get cur s).truthy then Val.num 1 else Val.num (-1)) k _ _ hk
  · intro s hs hknown
    obtain ⟨v, hv, hq⟩ := Obj.getOwn_foldl_setW_exists g.known g.phys
      (fun cur s => if (Obj.get cur s).truthy then Val.num 1 else Val.num (-1))
      (fun v => v = Val.num 1 ∨ v = Val.num (-1)) (g.phys s) (Obj.keys sort) sort
      (by
        intro acc f
        by_cases h : (Obj.get acc f).truthy = true
        · left
          simp [h]
        · right
          simp [h])
      (Or.inr ⟨s, hs, hknown, rfl⟩)
    have hv' : Obj.getOwn (g.sortLoop sort) (g.phys s) = some v := hv
    rcases hq with rfl | rfl
    · exact Or.inl hv'
    · exact Or.inr hv'

/-- The descriptor `{constructor: true}`: `constructor` is not in the mapping, but
`this.fields['constructor']` is the inherited function `Object`, which is truthy, so the
loop adds a key that is the text of that function. -/
theorem sortLoop_inherited_name :
    sampleGraph.mapped "constructor" = false ∧
    sampleGraph.sortLoop [("constructor", Val.bool true)]
      = [("constructor", Val.bool true),
         ("function Object() \x7b [native code] \x7d", Val.num 1)] := by
  decide

/-- C16, amended: take a sort descriptor whose keys outside the mapping do not bear the
name of a member of `Object.prototype`.  `options(options)` changes the caller's
descriptor in place: the sort it returns is the caller's sort object as the loop left
it, and that object has every key it had before; a key that is not the physical name of
a mapping-known key of the descriptor keeps its value; and for each mapping-known key
`k` of the descriptor (the keys the loop visits) the physical key `fields[k]` holds `1`
or `-1`. -/
theorem options_sort_in_place (g : Graph) (o : SelectOptions) (sort : Obj)
    (hsort : o.sort = some sort)
    (hplain : ∀ s ∈ Obj.keys sort, g.ownField s = none → inheritedKey s = none) :
    (g.optionsRun (some o)).1 = g.options (some o) ∧
    Obj.getOwn (g.optionsRun (some o)).1 "sort" = some (Val.obj (g.sortLoop sort)) ∧
    (g.optionsRun (some o)).2 = some { o with sort := some (g.sortLoop sort) } ∧
    (∀ k ∈ Obj.keys sort, k ∈ Obj.keys (g.sortLoop sort)) ∧
    (∀ k, (∀ s ∈ Obj.keys sort, g.mapped s = true → g.phys s ≠ k) →
      Obj.getOwn (g.sortLoop sort) k = Obj.getOwn sort k) ∧
    (∀ s ∈ Obj.keys sort, g.mapped s = true →
      Obj.getOwn (g.sortLoop sort) (g.phys s) = some (Val.num 1) ∨
      Obj.getOwn (g.sortLoop sort) (g.phys s) = some (Val.num (-1))) := by
  have hss : ("sort" : String) ≠ "skip" := by decide
  have hsol : ("sort" : String) ≠ "limit" := by decide
  obtain ⟨hkeys, hkeep, hval⟩ := sortLoop_keys_values g sort
  refine ⟨optionsRun_fst g (some o), ?_, ?_, hkeys, ?_, ?_⟩
  · obtain ⟨osort, skip, limit⟩ := o
    simp only at hsort
    subst hsort
    unfold optionsRun
    by_cases h1 : skip.typeof = "number" <;> by_cases h2 : limit.typeof = "number" <;>
      simp [h1, h2, Obj.getOwn_set, hss, hsol, Obj.getOwn, Ne.symm hss, Ne.symm hsol]
  · obtain ⟨osort, skip, limit⟩ := o
    simp only at hsort
    subst hsort
    rfl
  · intro k hk
    exact hkeep k (fun s hs hknown => hk s hs (mapped_of_known_of_plain hplain hs hknown))
  · intro s hs hmapped
    exact hval s hs (known_of_mapped hmapped)

/-- The amended C16 at the sample mapping and the descriptor `{source: true, weight: 1}`:
the returned sort and the caller's descriptor after the call. -/
theorem options_sort_in_place_witness :
    Obj.getOwn (sampleGraph.optionsRun (some
        { sort := some [("source", Val.bool true), ("weight", Val.num 1)],
          skip := Val.undefined, limit := Val.undefined })).1 "sort"
      = some (Val.obj [("source", Val.bool true), ("weight", Val.num 1), ("from", Val.num 1)]) ∧
    (sampleGraph.optionsRun (some
        { sort := some [("source", Val.bool true), ("weight", Val.num 1)],
          skip := Val.undefined, limit := Val.undefined })).2.map (fun o => o.sort)
      = some (some [("source", Val.bool true), ("weight", Val.num 1), ("from", Val.num 1)]) :=
  ⟨(options_sort_in_place sampleGraph
    { sort := some [("source", Val.bool true), ("weight", Val.num 1)],
      skip := Val.undefined, limit := Val.undefined }
    [("source", Val.bool true), ("weight", Val.num 1)] rfl (by decide)).2.1, by decide⟩

/-! ## C17: the options do not reach the collection -/

/-- C17: `_find` passes only the translated filter to `collection.find`; whatever the
options, `fetch`, `each` and `map` read the same documents and so give the same result on
the same collection state. -/
theorem options_do_not_affect_reads {σ κ β : Type} (g : Graph) (c : Collection σ κ) (s : σ)
    (selector : Val) (o1 o2 : Option SelectOptions) (callback : Bool) (cb : Obj → β) :
    g._find c s selector o1 = c.find s (g.query selector) ∧
    g.fetch c s selector o1 callback = g.fetch c s selector o2 callback ∧
    (g.fetch c s selector o1 callback).links = (g.fetch c s selector o2 callback).links ∧
    g.each c s selector o1 = g.each c s selector o2 ∧
    g.map c s selector o1 cb = g.map c s selector o2 cb :=
  ⟨rfl, rfl, rfl, rfl, rfl⟩

/-! ## C18: selectors that translate to the empty filter -/

/-- An object selector without a mapping-known field translates to the empty filter. -/
theorem query_obj_eq_empty_of_not_known (g : Graph) (S : Obj)
    (h : ∀ f ∈ Obj.keys S, g.known f = false) : g.query (Val.obj S) = Val.obj [] := by
  rw [query_obj]
  congr 1
  apply Obj.eq_nil_of_getOwn_eq_none
  intro k
  rw [Obj.getOwn_foldl_set_of_forall_ne]
  · rfl
  · intro f hf hk
    rw [h f hf] at hk
    cases hk

/-- The selectors that do translate to the empty filter: `null`, and an object `S` all of
whose fields fail the lookup `this.fields[f]` (they are neither in the mapping nor names
of members of `Object.prototype`); `remove` and `update` pass that filter on, and it
matches every document. -/
theorem query_eq_empty_of_field_none (g : Graph) (S : Obj)
    (hS : ∀ f ∈ Obj.keys S, g.field f = none) :
    g.query Val.null = Val.obj [] ∧
    g.query (Val.obj S) = Val.obj [] ∧
    (∀ document, Store.matchesFilter (Val.obj []) document = true) ∧
    (∀ (σ κ : Type) (c : Collection σ κ) (s : σ) (callback : Option κ),
      g.remove c s Val.null callback
        = match c.remove s (Val.obj []) callback with
          | .ok r => .ok (Val.undefined, r.2)
          | .error e => .error e) ∧
    (∀ (σ κ : Type) (c : Collection σ κ) (s : σ) (m : Obj) (callback : Option κ),
      g.update c s Val.null m callback
        = match c.update s (Val.obj []) (g.updateModifier m) callback with
          | .ok r => .ok (Val.undefined, r.2)
          | .error e => .error e) := by
  have hnull : g.query Val.null = Val.obj [] := by
    simp [query, Val.typeof, Val.forIn]
  refine ⟨hnull, ?_, ?_, ?_, ?_⟩
  · apply query_obj_eq_empty_of_not_known
    intro f hf
    simp [known, hS f hf]
  · intro document
    simp [Store.matchesFilter]
  · intro σ κ c s callback
    simp only [remove, hnull]
  · intro σ κ c s m callback
    simp only [update, hnull]

/-- C18: the selector `{constructor: 1}` has no field in the mapping, so the claim has
`query` return the empty filter `{}`; but `this.fields['constructor']` is the inherited
function `Object`, which passes the test `if (this.fields[m])`, and `query` returns a
filter with one clause, under the text of that function.  `remove({constructor: 1})`
then deletes nothing from the sample store, where the empty filter deletes its
document. -/
theorem query_inherited_name_not_dropped :
    sampleGraph.ownField "constructor" = none ∧
    sampleGraph.query (Val.obj [("constructor", Val.num 1)])
      = Val.obj [("function Object() \x7b [native code] \x7d", Val.num 1)] ∧
    sampleGraph.query (Val.obj [("constructor", Val.num 1)]) ≠ Val.obj [] ∧
    sampleGraph.remove (Store.collection sampleGen) sampleStore
        (Val.obj [("constructor", Val.num 1)]) none
      = .ok (Val.undefined, sampleStore) ∧
    sampleGraph.remove (Store.collection sampleGen) sampleStore Val.null none
      = .ok (Val.undefined, { docs := [], seed := 0 }) := by
  refine ⟨by decide, by decide, by decide, rfl, rfl⟩

/-! ## C19: the operators of the submitted modifier -/

theorem optObj_isSome_iff (part : Obj) : (optObj part).isSome = true ↔ part ≠ [] := by
  cases part <;> simp [optObj]

theorem setPart_ne_nil_iff (g : Graph) (modifier : Obj) :
    g.setPart modifier (Obj.keys modifier) [] ≠ [] ↔
      ∃ m ∈ Obj.keys modifier, g.known m = true ∧ Obj.get modifier m ≠ Val.undefined := by
  constructor
  · intro h
    cases hp : g.setPart modifier (Obj.keys modifier) [] with
    | nil => exact absurd hp h
    | cons e r =>
      have hsome : (Obj.getOwn (g.setPart modifier (Obj.keys modifier) []) e.1).isSome
          = true := by
        simp [hp, Obj.getOwn]
      unfold setPart at hsome
      rcases Obj.getOwn_foldl_set_isSome _ _ _ e.1 _ _ hsome with h0 | ⟨m, hm, hP, _⟩
      · simp [Obj.getOwn] at h0
      · simp only [Bool.and_eq_true, Bool.not_eq_true', decide_eq_false_iff_not,
          typeof_eq_undefined_iff] at hP
        exact ⟨m, hm, hP.1, hP.2⟩
  · rintro ⟨m, hm, hknown, hdef⟩ hnil
    obtain ⟨v, hv, _⟩ := Obj.getOwn_foldl_setW_exists
      (fun m => g.known m && !decide ((Obj.get modifier m).typeof = "undefined"))
      g.phys (fun _ m => Obj.get modifier m) (fun _ => True) (g.phys m)
      (Obj.keys modifier) [] (fun _ _ => trivial)
      (Or.inr ⟨m, hm, by simp [hknown, typeof_eq_undefined_iff, hdef], rfl⟩)
    have hv' : Obj.getOwn (g.setPart modifier (Obj.keys modifier) []) (g.phys m) = some v := hv
    rw [hnil] at hv'
    simp [Obj.getOwn] at hv'

theorem unsetPart_ne_nil_iff (g : Graph) (modifier : Obj) :
    g.unsetPart modifier (Obj.keys modifier) [] ≠ [] ↔
      ∃ m ∈ Obj.keys modifier, g.known m = true ∧ Obj.get modifier m = Val.undefined := by
  constructor
  · intro h
    cases hp : g.unsetPart modifier (Obj.keys modifier) [] with
    | nil => exact absurd hp h
    | cons e r =>
      have hsome : (Obj.getOwn (g.unsetPart modifier (Obj.keys modifier) []) e.1).isSome
          = true := by
        simp [hp, Obj.getOwn]
      unfold unsetPart at hsome
      rcases Obj.getOwn_foldl_set_isSome _ _ _ e.1 _ _ hsome with h0 | ⟨m, hm, hP, _⟩
      · simp [Obj.getOwn] at h0
      · simp only [Bool.and_eq_true, decide_eq_true_eq, typeof_eq_undefined_iff] at hP
        exact ⟨m, hm, hP.1, hP.2⟩
  · rintro ⟨m, hm, hknown, hundef⟩ hnil
    obtain ⟨v, hv, _⟩ := Obj.getOwn_foldl_setW_exists
      (fun m => g.known m && decide ((Obj.get modifier m).typeof = "undefined"))
      g.phys (fun _ _ => Val.str "") (fun _ => True) (g.phys m)
      (Obj.keys modifier) [] (fun _ _ => trivial)
      (Or.inr ⟨m, hm, by simp [hknown, typeof_eq_undefined_iff, hundef], rfl⟩)
    have hv' : Obj.getOwn (g.unsetPart modifier (Obj.keys modifier) []) (g.phys m) = some v :=
      hv
    rw [hnil] at hv'
    simp [Obj.getOwn] at hv'

/-- The operators of the submitted modifier in terms of the test `if (this.fields[m])`:
`$set` is present exactly when some field of the modifier passes the test with a defined
value, `$unset` exactly when some field passes it with the value `undefined`; when no
field passes the test the modifier is the empty object; and `update` calls the
collection's `update` once, with the filter `query(selector)` and this modifier. -/
theorem updateModifier_operators_iff (g : Graph) (modifier : Obj) :
    (Obj.hasOwnProperty (g.updateModifier modifier) "$set" = true ↔
      ∃ m ∈ Obj.keys modifier, g.known m = true ∧ Obj.get modifier m ≠ Val.undefined) ∧
    (Obj.hasOwnProperty (g.updateModifier modifier) "$unset" = true ↔
      ∃ m ∈ Obj.keys modifier, g.known m = true ∧ Obj.get modifier m = Val.undefined) ∧
    ((∀ m ∈ Obj.keys modifier, g.known m = false) → g.updateModifier modifier = []) ∧
    g.updateModifier [] = [] ∧
    (∀ (σ κ : Type) (c : Collection σ κ) (s : σ) (selector : Val) (callback : Option κ),
      g.update c s selector modifier callback
        = match c.update s (g.query selector) (g.updateModifier modifier) callback with
          | .ok r => .ok (Val.undefined, r.2)
          | .error e => .error e) := by
  obtain ⟨hu, hs, ho⟩ := modifierParts_updateModifier g modifier
  have hset : Obj.hasOwnProperty (g.updateModifier modifier) "$set" = true ↔
      ∃ m ∈ Obj.keys modifier, g.known m = true ∧ Obj.get modifier m ≠ Val.undefined := by
    unfold Obj.hasOwnProperty
    rw [hs, optObj_isSome_iff]
    exact setPart_ne_nil_iff g modifier
  have hunset : Obj.hasOwnProperty (g.updateModifier modifier) "$unset" = true ↔
      ∃ m ∈ Obj.keys modifier, g.known m = true ∧ Obj.get modifier m = Val.undefined := by
    unfold Obj.hasOwnProperty
    rw [hu, optObj_isSome_iff]
    exact unsetPart_ne_nil_iff g modifier
  refine ⟨hset, hunset, ?_, rfl, fun _ _ _ _ _ _ => rfl⟩
  intro hnone
  apply Obj.eq_nil_of_getOwn_eq_none
  intro k
  by_cases hk1 : k = "$unset"
  · subst hk1
    cases hget : Obj.getOwn (g.updateModifier modifier) "$unset" with
    | none => rfl
    | some v =>
      obtain ⟨m, hm, hknown, _⟩ := hunset.1 (by simp [Obj.hasOwnProperty, hget])
      rw [hnone m hm] at hknown
      cases hknown
  · by_cases hk2 : k = "$set"
    · subst hk2
      cases hget : Obj.getOwn (g.updateModifier modifier) "$set" with
      | none => rfl
      | some v =>
        obtain ⟨m, hm, hknown, _⟩ := hset.1 (by simp [Obj.hasOwnProperty, hget])
        rw [hnone m hm] at hknown
        cases hknown
    · exact ho k hk1 hk2

/-- C19: the modifier `{constructor: 'k'}` has no mapping-known field, so the claim has
`update` submit the empty modifier `{}`, without `$set`; but `this.fields['constructor']`
is the inherited function `Object`, which passes the test `if (this.fields[m])`, and the
submitted modifier has a `$set` document that writes `'k'` under the text of that
function.  On the sample store `update('x', {constructor: 'k'})` adds that field to the
document. -/
theorem update_inherited_name_submits_set :
    sampleGraph.mapped "constructor" = false ∧
    sampleGraph.updateModifier [("constructor", Val.str "k")]
      = [("$set", Val.obj [("function Object() \x7b [native code] \x7d", Val.str "k")])] ∧
    Obj.hasOwnProperty (sampleGraph.updateModifier [("constructor", Val.str "k")]) "$set"
      = true ∧
    sampleGraph.update (Store.collection sampleGen) sampleStore (Val.str "x")
        [("constructor", Val.str "k")] none
      = .ok (Val.undefined,
          { docs := [[("_id", Val.str "x"), ("from", Val.str "a"), ("to", Val.str "b"),
              ("function Object() \x7b [native code] \x7d", Val.str "k")]],
            seed := 0 }) := by
  refine ⟨by decide, by decide, by decide, rfl⟩

end Graph

end MinimongoGraph
